import Mathlib

/-!
Shallow embedding of the AccountBot ledger engine and session state machine.

Embedded TypeScript sources:
* services/firestore.ts (src/unnamed/part_013, final document): the Ledger
  Engine — createTransactionAndUpdateBalance, createTransferAndUpdateBalances,
  createCancellationAndUpdateBalance, createTransferCancellation,
  verifyAccountIntegrity, plus the session-store primitives getSessionKey,
  getSession, setSession, deleteSession and the legacy non-atomic pair
  createTransaction / updateAccountBalance.
* handlers/add.ts and handlers/sync.ts: the session step handlers
  handleSessionMessage, handleAmountInput, handleDescriptionInput,
  handleSyncAmountInput and the transfer destination-selection callback
  handleTransferToCallback.
* utils/currency.ts: toMinorUnits.

Modelling conventions:
* Firestore auto-generated document ids are modelled as sequentially assigned
  naturals (LedgerState.nextId); Timestamp.now() is a logical clock
  (LedgerState.now) that advances once per engine operation, so creation order
  coincides with list order and with id order.
* Monetary values are integers in minor units, exactly as stored.
* A Firestore runTransaction block is one atomic state transition; a thrown
  error aborts the transaction with no writes, which is modelled by Except:
  an error result carries no successor state.
* Collections are association lists kept in creation order; a query
  where-slug-limit-1 is find-first, and an update on the returned document
  reference modifies that first match in place.
-/

namespace AccountBot

/-- Transaction source tag (types/index.ts: TransactionSource). -/
inductive Source
  | manual
  | sync
  | transfer
  | cancellation
deriving DecidableEq, Repr

/-- Transfer leg direction (types/index.ts: transferType field). -/
inductive TransferType
  | outgoing
  | incoming
deriving DecidableEq, Repr

/-- Legacy display tag written by the non-atomic createTransaction
(source field name: type). -/
inductive EntryKind
  | add
  | subtract
deriving DecidableEq, Repr

/-- Account document (types/index.ts: Account). Balance is an integer in
minor units. -/
structure Account where
  name : String
  slug : String
  currency : String
  balance : Int
deriving DecidableEq, Repr

/-- Transaction document (types/index.ts: Transaction). balanceAfter is
optional because the legacy createTransaction writes no snapshot; the atomic
engine operations always write one. Ids in linking fields are document ids. -/
structure Transaction where
  accountSlug : String
  amount : Int
  currency : String
  description : Option String
  source : Source
  createdAt : Nat
  createdById : String
  createdByName : String
  balanceAfter : Option Int
  entryType : Option EntryKind
  linkedTransactionId : Option Nat
  transferType : Option TransferType
  cancelledTransactionId : Option Nat
  cancelledAt : Option Nat
  cancelledByTxnId : Option Nat
deriving DecidableEq, Repr

/-- Input record for createTransaction / createTransactionAndUpdateBalance
(types/index.ts: CreateTransactionData). -/
structure CreateTransactionData where
  accountSlug : String
  amount : Int
  currency : String
  description : Option String
  source : Source
  createdById : String
  createdByName : String
deriving DecidableEq, Repr

/-- Input record for createTransferAndUpdateBalances
(types/index.ts: CreateTransferData). -/
structure CreateTransferData where
  fromAccountSlug : String
  toAccountSlug : String
  fromAmount : Int
  toAmount : Int
  fromCurrency : String
  toCurrency : String
  description : Option String
  createdById : String
  createdByName : String
deriving DecidableEq, Repr

/-- The Firestore-backed ledger: accounts and transactions collections in
creation order, the id allocator and the logical clock. -/
structure LedgerState where
  accounts : List Account
  transactions : List (Nat × Transaction)
  nextId : Nat
  now : Nat
deriving DecidableEq, Repr

/-- Errors thrown inside the engine operations; each constructor corresponds
to one throw site in services/firestore.ts, grouped by the error classes the
specification names (AccountNotFound, AlreadyCancelled,
InvalidCancellationTarget, NotATransfer). -/
inductive LedgerError
  | accountNotFound (slug : String)
  | transactionNotFound (id : Nat)
  | linkedTransactionNotFound (id : Nat)
  | alreadyCancelled
  | invalidCancellationTarget
  | notATransfer
deriving DecidableEq, Repr

/-- where-slug-equals-limit-1 query over the accounts collection: first
matching document or none. -/
def findAccount (accounts : List Account) (slug : String) : Option Account :=
  accounts.find? (fun a => a.slug == slug)

/-- getAccountBySlug (services/firestore.ts). -/
def getAccountBySlug (s : LedgerState) (slug : String) : Option Account :=
  findAccount s.accounts slug

/-- Update the balance field of the first account document matching the slug;
no match leaves the collection unchanged (the engine always checks existence
first and throws before reaching the write). -/
def setAccountBalance : List Account → String → Int → List Account
  | [], _, _ => []
  | a :: rest, slug, b =>
    if a.slug == slug then { a with balance := b } :: rest
    else a :: setAccountBalance rest slug b

/-- Document lookup by id in a transactions collection. -/
def findTransaction (l : List (Nat × Transaction)) (id : Nat) : Option Transaction :=
  (l.find? (fun p => p.1 == id)).map Prod.snd

/-- getTransactionById (services/firestore.ts). -/
def getTransactionById (s : LedgerState) (id : Nat) : Option Transaction :=
  findTransaction s.transactions id

/-- Firestore update on the transaction document with the given id: apply the
field update to that document, leaving every other document unchanged. -/
def updateTransactionDoc (l : List (Nat × Transaction)) (id : Nat)
    (f : Transaction → Transaction) : List (Nat × Transaction) :=
  l.map (fun p => if p.1 == id then (p.1, f p.2) else p)

/-- Shallow embedding of createTransactionAndUpdateBalance
(services/firestore.ts lines 301 to 350): inside one Firestore transaction,
read the account by slug (throw AccountNotFound when absent), compute
balanceAfter as balance plus amount, write the new transaction document
carrying that snapshot, and set the account balance to the same value.
Returns the new document id. -/
def createTransactionAndUpdateBalance (s : LedgerState)
    (data : CreateTransactionData) : Except LedgerError (LedgerState × Nat) :=
  match getAccountBySlug s data.accountSlug with
  | none => .error (.accountNotFound data.accountSlug)
  | some account =>
    let balanceAfter := account.balance + data.amount
    let txn : Transaction :=
      { accountSlug := data.accountSlug
        amount := data.amount
        currency := data.currency
        description := data.description
        source := data.source
        createdAt := s.now
        createdById := data.createdById
        createdByName := data.createdByName
        balanceAfter := some balanceAfter
        entryType := none
        linkedTransactionId := none
        transferType := none
        cancelledTransactionId := none
        cancelledAt := none
        cancelledByTxnId := none }
    .ok ({ accounts := setAccountBalance s.accounts data.accountSlug balanceAfter
           transactions := s.transactions ++ [(s.nextId, txn)]
           nextId := s.nextId + 1
           now := s.now + 1 }, s.nextId)

/-- Shallow embedding of the legacy createTransaction
(services/firestore.ts, first document of src/unnamed/part_013, lines 73 to
98): append a transaction document with no balanceAfter snapshot and no
balance update (the caller performs updateAccountBalance separately). -/
def createTransaction (s : LedgerState) (data : CreateTransactionData) :
    LedgerState × Nat :=
  let txn : Transaction :=
    { accountSlug := data.accountSlug
      amount := data.amount
      currency := data.currency
      description := data.description
      source := data.source
      createdAt := s.now
      createdById := data.createdById
      createdByName := data.createdByName
      balanceAfter := none
      entryType := some (if 0 ≤ data.amount then .add else .subtract)
      linkedTransactionId := none
      transferType := none
      cancelledTransactionId := none
      cancelledAt := none
      cancelledByTxnId := none }
  ({ s with
      transactions := s.transactions ++ [(s.nextId, txn)]
      nextId := s.nextId + 1
      now := s.now + 1 }, s.nextId)

/-- Shallow embedding of updateAccountBalance (services/firestore.ts):
increment the balance of the first account matching the slug by delta; throw
AccountNotFound when the slug does not resolve. -/
def updateAccountBalance (s : LedgerState) (slug : String) (delta : Int) :
    Except LedgerError LedgerState :=
  match getAccountBySlug s slug with
  | none => .error (.accountNotFound slug)
  | some account =>
    .ok { s with accounts := setAccountBalance s.accounts slug (account.balance + delta) }

/-- Shallow embedding of createTransferAndUpdateBalances
(services/firestore.ts lines 513 to 597): read both accounts inside one
Firestore transaction (throwing AccountNotFound for whichever slug fails to
resolve), write the outgoing leg with amount minus abs fromAmount and the
incoming leg with amount plus abs toAmount, cross-linked through
linkedTransactionId, both stamped with the same creation time, then set the
source balance and the destination balance. When both slugs name the same
account document, the two balance writes hit the same document and the later
(destination) write wins, exactly as in Firestore. -/
def createTransferAndUpdateBalances (s : LedgerState)
    (data : CreateTransferData) : Except LedgerError (LedgerState × (Nat × Nat)) :=
  match getAccountBySlug s data.fromAccountSlug, getAccountBySlug s data.toAccountSlug with
  | none, _ => .error (.accountNotFound data.fromAccountSlug)
  | some _, none => .error (.accountNotFound data.toAccountSlug)
  | some fromAccount, some toAccount =>
    let fromBalanceAfter := fromAccount.balance - |data.fromAmount|
    let toBalanceAfter := toAccount.balance + |data.toAmount|
    let fromId := s.nextId
    let toId := s.nextId + 1
    let fromTxn : Transaction :=
      { accountSlug := data.fromAccountSlug
        amount := -|data.fromAmount|
        currency := data.fromCurrency
        description := data.description
        source := .transfer
        createdAt := s.now
        createdById := data.createdById
        createdByName := data.createdByName
        balanceAfter := some fromBalanceAfter
        entryType := none
        linkedTransactionId := some toId
        transferType := some .outgoing
        cancelledTransactionId := none
        cancelledAt := none
        cancelledByTxnId := none }
    let toTxn : Transaction :=
      { accountSlug := data.toAccountSlug
        amount := |data.toAmount|
        currency := data.toCurrency
        description := data.description
        source := .transfer
        createdAt := s.now
        createdById := data.createdById
        createdByName := data.createdByName
        balanceAfter := some toBalanceAfter
        entryType := none
        linkedTransactionId := some fromId
        transferType := some .incoming
        cancelledTransactionId := none
        cancelledAt := none
        cancelledByTxnId := none }
    .ok ({ accounts :=
             setAccountBalance
               (setAccountBalance s.accounts data.fromAccountSlug fromBalanceAfter)
               data.toAccountSlug toBalanceAfter
           transactions := s.transactions ++ [(fromId, fromTxn), (toId, toTxn)]
           nextId := s.nextId + 2
           now := s.now + 1 }, (fromId, toId))

/-- Shallow embedding of createCancellationAndUpdateBalance
(services/firestore.ts lines 636 to 708): read the original transaction
(throw when missing), reject a cancellation source
(InvalidCancellationTarget) then an already cancelled original
(AlreadyCancelled) before any write, read the account, write the reversal
transaction with the negated amount and its balance snapshot, mark the
original with cancelledAt and cancelledByTxnId, and set the new balance. -/
def createCancellationAndUpdateBalance (s : LedgerState) (originalTxnId : Nat)
    (createdById createdByName : String) :
    Except LedgerError (LedgerState × Nat) :=
  match getTransactionById s originalTxnId with
  | none => .error (.transactionNotFound originalTxnId)
  | some original =>
    if original.source = .cancellation then .error .invalidCancellationTarget
    else if original.cancelledAt.isSome then .error .alreadyCancelled
    else
      match getAccountBySlug s original.accountSlug with
      | none => .error (.accountNotFound original.accountSlug)
      | some account =>
        let reversalAmount := -original.amount
        let newBalance := account.balance + reversalAmount
        let cancelId := s.nextId
        let cancelTxn : Transaction :=
          { accountSlug := original.accountSlug
            amount := reversalAmount
            currency := original.currency
            description := none
            source := .cancellation
            createdAt := s.now
            createdById := createdById
            createdByName := createdByName
            balanceAfter := some newBalance
            entryType := none
            linkedTransactionId := none
            transferType := none
            cancelledTransactionId := some originalTxnId
            cancelledAt := none
            cancelledByTxnId := none }
        .ok ({ accounts := setAccountBalance s.accounts original.accountSlug newBalance
               transactions :=
                 updateTransactionDoc s.transactions originalTxnId
                   (fun t => { t with cancelledAt := some s.now
                                      cancelledByTxnId := some cancelId })
                 ++ [(cancelId, cancelTxn)]
               nextId := s.nextId + 1
               now := s.now + 1 }, cancelId)

/-- Shallow embedding of createTransferCancellation (services/firestore.ts
lines 714 to 828): read the original leg, require source transfer with a
linkedTransactionId (NotATransfer), read the linked leg, require neither leg
cancelled (AlreadyCancelled), read both accounts, write two cross-linked
reversal legs each negating its original, mark both originals cancelled, and
subtract each original amount from its account balance. -/
def createTransferCancellation (s : LedgerState) (originalTxnId : Nat)
    (createdById createdByName : String) :
    Except LedgerError (LedgerState × (Nat × Nat)) :=
  match getTransactionById s originalTxnId with
  | none => .error (.transactionNotFound originalTxnId)
  | some original =>
    if original.source ≠ .transfer then .error .notATransfer
    else
      match original.linkedTransactionId with
      | none => .error .notATransfer
      | some linkedId =>
        match getTransactionById s linkedId with
        | none => .error (.linkedTransactionNotFound linkedId)
        | some linked =>
          if original.cancelledAt.isSome ∨ linked.cancelledAt.isSome then
            .error .alreadyCancelled
          else
            match getAccountBySlug s original.accountSlug,
                  getAccountBySlug s linked.accountSlug with
            | none, _ => .error (.accountNotFound original.accountSlug)
            | some _, none => .error (.accountNotFound linked.accountSlug)
            | some fromAccount, some toAccount =>
              let fromNewBalance := fromAccount.balance - original.amount
              let toNewBalance := toAccount.balance - linked.amount
              let fromCancelId := s.nextId
              let toCancelId := s.nextId + 1
              let fromCancelTxn : Transaction :=
                { accountSlug := original.accountSlug
                  amount := -original.amount
                  currency := original.currency
                  description := none
                  source := .cancellation
                  createdAt := s.now
                  createdById := createdById
                  createdByName := createdByName
                  balanceAfter := some fromNewBalance
                  entryType := none
                  linkedTransactionId := some toCancelId
                  transferType := none
                  cancelledTransactionId := some originalTxnId
                  cancelledAt := none
                  cancelledByTxnId := none }
              let toCancelTxn : Transaction :=
                { accountSlug := linked.accountSlug
                  amount := -linked.amount
                  currency := linked.currency
                  description := none
                  source := .cancellation
                  createdAt := s.now
                  createdById := createdById
                  createdByName := createdByName
                  balanceAfter := some toNewBalance
                  entryType := none
                  linkedTransactionId := some fromCancelId
                  transferType := none
                  cancelledTransactionId := some linkedId
                  cancelledAt := none
                  cancelledByTxnId := none }
              .ok ({ accounts :=
                       setAccountBalance
                         (setAccountBalance s.accounts original.accountSlug fromNewBalance)
                         linked.accountSlug toNewBalance
                     transactions :=
                       updateTransactionDoc
                         (updateTransactionDoc s.transactions originalTxnId
                           (fun t => { t with cancelledAt := some s.now
                                              cancelledByTxnId := some fromCancelId }))
                         linkedId
                         (fun t => { t with cancelledAt := some s.now
                                            cancelledByTxnId := some toCancelId })
                       ++ [(fromCancelId, fromCancelTxn), (toCancelId, toCancelTxn)]
                     nextId := s.nextId + 2
                     now := s.now + 1 }, (fromCancelId, toCancelId))

/-- Transactions of one account in creation order (the where-accountSlug
query ordered by createdAt ascending; creation order, id order and createdAt
order coincide in this embedding). -/
def transactionsFor (l : List (Nat × Transaction)) (slug : String) :
    List (Nat × Transaction) :=
  l.filter (fun p => p.2.accountSlug == slug)

/-- Outcome of verifyAccountIntegrity. The code returns a boolean and logs
the detail of the first failure; the constructors carry exactly the fields
of the corresponding log.error call. -/
inductive IntegrityResult
  | pass
  | missingAccount (slug : String)
  | transactionMismatch (transactionId : Nat) (expected : Int) (actual : Option Int)
  | balanceMismatch (slug : String) (accountBalance calculatedBalance : Int)
deriving DecidableEq, Repr

/-- The replay loop of verifyAccountIntegrity: starting from the accumulator,
add each amount in order and compare with the stored balanceAfter; stop at
the first mismatch (reporting document id, expected running total and stored
value), otherwise return the final running total. -/
def replayBalance : List (Nat × Transaction) → Int →
    Except (Nat × Int × Option Int) Int
  | [], acc => .ok acc
  | p :: rest, acc =>
    let calculated := acc + p.2.amount
    if p.2.balanceAfter ≠ some calculated then .error (p.1, calculated, p.2.balanceAfter)
    else replayBalance rest calculated

/-- Shallow embedding of verifyAccountIntegrity (services/firestore.ts lines
460 to 504), with the logged failure detail made part of the result. -/
def verifyAccountIntegrity (s : LedgerState) (slug : String) : IntegrityResult :=
  match getAccountBySlug s slug with
  | none => .missingAccount slug
  | some account =>
    match replayBalance (transactionsFor s.transactions slug) 0 with
    | .error (id, expected, actual) => .transactionMismatch id expected actual
    | .ok calculatedBalance =>
      if calculatedBalance ≠ account.balance then
        .balanceMismatch slug account.balance calculatedBalance
      else .pass

/-- The boolean verifyAccountIntegrity actually returns: true exactly on
pass. -/
def verifyAccountIntegrityBool (s : LedgerState) (slug : String) : Bool :=
  match verifyAccountIntegrity s slug with
  | .pass => true
  | _ => false

/-! Basic lemmas about the account collection primitives. -/

theorem findAccount_some_slug {l : List Account} {slug : String} {a : Account}
    (h : findAccount l slug = some a) : a.slug = slug := by
  have hb := List.find?_some h
  exact eq_of_beq hb

theorem findAccount_some_mem {l : List Account} {slug : String} {a : Account}
    (h : findAccount l slug = some a) : a ∈ l :=
  List.mem_of_find?_eq_some h

theorem findAccount_cons_eq {hd : Account} (tl : List Account) {slug : String}
    (h : hd.slug = slug) : findAccount (hd :: tl) slug = some hd := by
  have hb : (hd.slug == slug) = true := by simp [h]
  simp [findAccount, List.find?, hb]

theorem findAccount_cons_ne {hd : Account} (tl : List Account) {slug : String}
    (h : ¬hd.slug = slug) : findAccount (hd :: tl) slug = findAccount tl slug := by
  have hb : (hd.slug == slug) = false := by simp [h]
  simp [findAccount, List.find?, hb]

theorem setAccountBalance_cons_eq {hd : Account} (tl : List Account)
    {slug : String} (b : Int) (h : hd.slug = slug) :
    setAccountBalance (hd :: tl) slug b = { hd with balance := b } :: tl := by
  have hb : (hd.slug == slug) = true := by simp [h]
  simp [setAccountBalance, hb]

theorem setAccountBalance_cons_ne {hd : Account} (tl : List Account)
    {slug : String} (b : Int) (h : ¬hd.slug = slug) :
    setAccountBalance (hd :: tl) slug b = hd :: setAccountBalance tl slug b := by
  have hb : (hd.slug == slug) = false := by simp [h]
  simp [setAccountBalance, hb]

theorem findAccount_setAccountBalance_self :
    ∀ (l : List Account) (slug : String) (b : Int) (a : Account),
      findAccount l slug = some a →
      findAccount (setAccountBalance l slug b) slug = some { a with balance := b }
  | [], _, _, _, h => by simp [findAccount] at h
  | hd :: tl, slug, b, a, h => by
    by_cases hb : hd.slug = slug
    · rw [findAccount_cons_eq tl hb] at h
      cases h
      rw [setAccountBalance_cons_eq tl b hb]
      exact findAccount_cons_eq tl hb
    · rw [findAccount_cons_ne tl hb] at h
      rw [setAccountBalance_cons_ne tl b hb, findAccount_cons_ne _ hb]
      exact findAccount_setAccountBalance_self tl slug b a h

theorem findAccount_setAccountBalance_ne :
    ∀ (l : List Account) (slug slug' : String) (b : Int), slug' ≠ slug →
      findAccount (setAccountBalance l slug b) slug' = findAccount l slug'
  | [], _, _, _, _ => rfl
  | hd :: tl, slug, slug', b, hne => by
    by_cases hb : hd.slug = slug
    · have hb' : ¬hd.slug = slug' := fun hc => hne (hc ▸ hb)
      rw [setAccountBalance_cons_eq tl b hb, findAccount_cons_ne tl hb',
        findAccount_cons_ne tl (show ¬({ hd with balance := b } : Account).slug = slug' from hb')]
    · rw [setAccountBalance_cons_ne tl b hb]
      by_cases hh : hd.slug = slug'
      · rw [findAccount_cons_eq _ hh, findAccount_cons_eq tl hh]
      · rw [findAccount_cons_ne _ hh, findAccount_cons_ne tl hh]
        exact findAccount_setAccountBalance_ne tl slug slug' b hne

/-- C2: recordTransaction — on an unresolved slug it fails AccountNotFound
(and, the operation being one atomic unit, no state is produced); on a
resolved slug it appends exactly one transaction whose amount is the given
amount and whose balanceAfter is the previous balance plus the amount, sets
the account balance to that same value, leaves every other slug untouched,
and returns the new transaction id. -/
theorem recordTransaction_spec (s : LedgerState) (data : CreateTransactionData) :
    (getAccountBySlug s data.accountSlug = none →
      createTransactionAndUpdateBalance s data =
        .error (.accountNotFound data.accountSlug)) ∧
    (∀ account, getAccountBySlug s data.accountSlug = some account →
      ∃ s' txn,
        createTransactionAndUpdateBalance s data = .ok (s', s.nextId) ∧
        s'.transactions = s.transactions ++ [(s.nextId, txn)] ∧
        txn.amount = data.amount ∧
        txn.balanceAfter = some (account.balance + data.amount) ∧
        txn.accountSlug = data.accountSlug ∧
        txn.source = data.source ∧
        getAccountBySlug s' data.accountSlug =
          some { account with balance := account.balance + data.amount } ∧
        (∀ slug, slug ≠ data.accountSlug →
          getAccountBySlug s' slug = getAccountBySlug s slug)) := by
  constructor
  · intro h
    simp [createTransactionAndUpdateBalance, h]
  · intro account h
    simp only [createTransactionAndUpdateBalance, h]
    exact ⟨_, _, rfl, rfl, rfl, rfl, rfl, rfl,
      findAccount_setAccountBalance_self s.accounts data.accountSlug
        (account.balance + data.amount) account h,
      fun slug hne => findAccount_setAccountBalance_ne s.accounts data.accountSlug
        slug (account.balance + data.amount) hne⟩

/-- Demo account used by concrete witnesses: EUR account with balance 0. -/
def cashAccount : Account :=
  { name := ("Cash"), slug := ("cash"), currency := ("EUR"), balance := 0 }

/-- Second demo account used by concrete witnesses. -/
def cardAccount : Account :=
  { name := ("Card"), slug := ("card"), currency := ("USD"), balance := 1000 }

/-- Demo ledger with the two demo accounts and no transactions. -/
def demoLedger : LedgerState :=
  { accounts := [cashAccount, cardAccount], transactions := [], nextId := 0, now := 0 }

/-- The manual Groceries entry of the specification scenario. -/
def groceriesData : CreateTransactionData :=
  { accountSlug := ("cash"), amount := 10050, currency := ("EUR")
    description := some ("Groceries"), source := .manual
    createdById := ("actorX"), createdByName := ("Actor X") }

/-- Witness for C2: the scenario account cash (EUR, balance 0) with
recordTransaction of 10050 — the stored balance and the snapshot both become
10050 and the new id is returned. -/
theorem recordTransaction_spec_witness :
    ∃ s' txn,
      createTransactionAndUpdateBalance demoLedger groceriesData = .ok (s', 0) ∧
      s'.transactions = [(0, txn)] ∧
      txn.amount = 10050 ∧
      txn.balanceAfter = some 10050 ∧
      getAccountBySlug s' ("cash") = some { cashAccount with balance := 10050 } := by
  obtain ⟨s', txn, h1, h2, h3, h4, _, _, h7, _⟩ :=
    (recordTransaction_spec demoLedger groceriesData).2 cashAccount (by decide)
  exact ⟨s', txn, h1, by simpa [demoLedger] using h2, h3, h4, h7⟩

/-- C3 (amended with the distinct-slug hypothesis): recordTransfer between
two distinct resolved slugs atomically appends exactly two transactions — an
outgoing leg with amount minus abs fromAmount and an incoming leg with
amount plus abs toAmount, mutually referencing each other through
linkedTransactionId — decreases the source balance by abs fromAmount,
increases the destination balance by abs toAmount, and fails AccountNotFound
(producing no state) when either slug is unresolved. -/
theorem recordTransfer_spec (s : LedgerState) (data : CreateTransferData)
    (hne : data.fromAccountSlug ≠ data.toAccountSlug) :
    ((getAccountBySlug s data.fromAccountSlug = none ∨
        getAccountBySlug s data.toAccountSlug = none) →
      ∃ slug, createTransferAndUpdateBalances s data =
        .error (.accountNotFound slug) ∧
        (slug = data.fromAccountSlug ∨ slug = data.toAccountSlug)) ∧
    (∀ fromAccount toAccount,
      getAccountBySlug s data.fromAccountSlug = some fromAccount →
      getAccountBySlug s data.toAccountSlug = some toAccount →
      ∃ s' fromTxn toTxn,
        createTransferAndUpdateBalances s data = .ok (s', (s.nextId, s.nextId + 1)) ∧
        s'.transactions = s.transactions ++ [(s.nextId, fromTxn), (s.nextId + 1, toTxn)] ∧
        fromTxn.amount = -|data.fromAmount| ∧
        fromTxn.transferType = some .outgoing ∧
        fromTxn.linkedTransactionId = some (s.nextId + 1) ∧
        fromTxn.accountSlug = data.fromAccountSlug ∧
        fromTxn.source = .transfer ∧
        toTxn.amount = |data.toAmount| ∧
        toTxn.transferType = some .incoming ∧
        toTxn.linkedTransactionId = some s.nextId ∧
        toTxn.accountSlug = data.toAccountSlug ∧
        toTxn.source = .transfer ∧
        getAccountBySlug s' data.fromAccountSlug =
          some { fromAccount with balance := fromAccount.balance - |data.fromAmount| } ∧
        getAccountBySlug s' data.toAccountSlug =
          some { toAccount with balance := toAccount.balance + |data.toAmount| }) := by
  constructor
  · intro h
    rcases h with h | h
    · exact ⟨data.fromAccountSlug, by simp [createTransferAndUpdateBalances, h], Or.inl rfl⟩
    · rcases hf : getAccountBySlug s data.fromAccountSlug with _ | fromAccount
      · exact ⟨data.fromAccountSlug, by simp [createTransferAndUpdateBalances, hf], Or.inl rfl⟩
      · exact ⟨data.toAccountSlug, by simp [createTransferAndUpdateBalances, hf, h], Or.inr rfl⟩
  · intro fromAccount toAccount hf ht
    simp only [createTransferAndUpdateBalances, hf, ht]
    refine ⟨_, _, _, rfl, rfl, rfl, rfl, rfl, rfl, rfl, rfl, rfl, rfl, rfl, rfl, ?_, ?_⟩
    · show findAccount _ data.fromAccountSlug = _
      rw [findAccount_setAccountBalance_ne _ _ _ _ hne]
      exact findAccount_setAccountBalance_self s.accounts data.fromAccountSlug
        (fromAccount.balance - |data.fromAmount|) fromAccount hf
    · show findAccount _ data.toAccountSlug = _
      refine findAccount_setAccountBalance_self _ data.toAccountSlug
        (toAccount.balance + |data.toAmount|) toAccount ?_
      rw [findAccount_setAccountBalance_ne _ _ _ _ (Ne.symm hne)]
      exact ht

/-- Cross-currency transfer input of the specification scenario: cash to
card, 5000 out, 5500 in. -/
def rentTransferData : CreateTransferData :=
  { fromAccountSlug := ("cash"), toAccountSlug := ("card")
    fromAmount := 5000, toAmount := 5500
    fromCurrency := ("EUR"), toCurrency := ("USD")
    description := some ("Rent"), createdById := ("actorX")
    createdByName := ("Actor X") }

/-- Witness for C3: the scenario transfer cash to card (5000 out, 5500 in)
appends the two cross-linked legs and moves both balances. -/
theorem recordTransfer_spec_witness :
    ∃ s' fromTxn toTxn,
      createTransferAndUpdateBalances demoLedger rentTransferData =
        .ok (s', (0, 1)) ∧
      s'.transactions = [(0, fromTxn), (1, toTxn)] ∧
      fromTxn.amount = -5000 ∧
      toTxn.amount = 5500 ∧
      fromTxn.linkedTransactionId = some 1 ∧
      toTxn.linkedTransactionId = some 0 ∧
      getAccountBySlug s' ("cash") = some { cashAccount with balance := -5000 } ∧
      getAccountBySlug s' ("card") = some { cardAccount with balance := 6500 } := by
  obtain ⟨s', fromTxn, toTxn, h1, h2, h3, _, h5, _, _, h8, _, h10, _, _, h13, h14⟩ :=
    (recordTransfer_spec demoLedger rentTransferData (by decide)).2
      cashAccount cardAccount (by decide) (by decide)
  refine ⟨s', fromTxn, toTxn, h1, by simpa [demoLedger] using h2, by simpa using h3,
    by simpa using h8, h5, h10, ?_, ?_⟩
  · simpa [rentTransferData, cashAccount] using h13
  · simpa [rentTransferData, cardAccount] using h14

/-- Same-slug transfer input: source and destination both resolve to the
cash account; the Ledger Engine does not reject this. -/
def selfTransferData : CreateTransferData :=
  { fromAccountSlug := ("cash"), toAccountSlug := ("cash")
    fromAmount := 100, toAmount := 200
    fromCurrency := ("EUR"), toCurrency := ("EUR")
    description := none, createdById := ("actorX")
    createdByName := ("Actor X") }

/-- Counterexample for C3 as frozen: when both slugs resolve to the same
account (slug cash, balance 0, fromAmount 100, toAmount 200), the operation
succeeds but the source account balance afterwards is 200, not the claimed
previous balance minus abs fromAmount (which would be -100): the claim fails
at this input. -/
theorem recordTransfer_spec_counterexample :
    (match createTransferAndUpdateBalances demoLedger selfTransferData with
      | .ok (s', _) => getAccountBySlug s' ("cash")
      | .error _ => none) = some { cashAccount with balance := 200 } ∧
    ¬(200 : Int) = cashAccount.balance - |selfTransferData.fromAmount| := by
  constructor
  · decide
  · decide

/-! Lemmas about transaction lookup, update and append. -/

theorem findTransaction_append (l₁ l₂ : List (Nat × Transaction)) (id : Nat) :
    findTransaction (l₁ ++ l₂) id =
      (findTransaction l₁ id).or (findTransaction l₂ id) := by
  simp only [findTransaction, List.find?_append]
  cases l₁.find? (fun p => p.1 == id) <;> simp

theorem findTransaction_singleton (i : Nat) (t : Transaction) (id : Nat) :
    findTransaction [(i, t)] id = if i = id then some t else none := by
  by_cases h : i = id
  · have hb : ((i, t).1 == id) = true := by simp [h]
    simp [findTransaction, List.find?, hb, h]
  · have hb : ((i, t).1 == id) = false := by simp [h]
    simp [findTransaction, List.find?, hb, h]

theorem findTransaction_cons (hd : Nat × Transaction)
    (tl : List (Nat × Transaction)) (id : Nat) :
    findTransaction (hd :: tl) id =
      if hd.1 == id then some hd.2 else findTransaction tl id := by
  by_cases h : hd.1 = id
  · have hb : (hd.1 == id) = true := by simp [h]
    simp [findTransaction, List.find?, hb]
  · have hb : (hd.1 == id) = false := by simp [h]
    simp [findTransaction, List.find?, hb]

theorem updateTransactionDoc_cons (hd : Nat × Transaction)
    (tl : List (Nat × Transaction)) (id : Nat) (f : Transaction → Transaction) :
    updateTransactionDoc (hd :: tl) id f =
      (if hd.1 == id then (hd.1, f hd.2) else hd) :: updateTransactionDoc tl id f := rfl

theorem findTransaction_update_self (l : List (Nat × Transaction)) (id : Nat)
    (f : Transaction → Transaction) :
    findTransaction (updateTransactionDoc l id f) id =
      (findTransaction l id).map f := by
  induction l with
  | nil => rfl
  | cons hd tl ih =>
    rw [updateTransactionDoc_cons, findTransaction_cons, findTransaction_cons]
    by_cases hh : hd.1 = id
    · have hb : (hd.1 == id) = true := by simp [hh]
      simp [hb]
    · have hb : (hd.1 == id) = false := by simp [hh]
      simp [hb, ih]

theorem findTransaction_update_ne (l : List (Nat × Transaction)) (id id' : Nat)
    (f : Transaction → Transaction) (h : id' ≠ id) :
    findTransaction (updateTransactionDoc l id f) id' = findTransaction l id' := by
  induction l with
  | nil => rfl
  | cons hd tl ih =>
    rw [updateTransactionDoc_cons, findTransaction_cons, findTransaction_cons]
    by_cases hh : hd.1 = id
    · have hb : (hd.1 == id) = true := by simp [hh]
      have hb' : (hd.1 == id') = false := by simp [hh, Ne.symm h]
      simp [hb, hb', ih]
    · have hb : (hd.1 == id) = false := by simp [hh]
      by_cases hh' : hd.1 = id'
      · have hb' : (hd.1 == id') = true := by simp [hh']
        simp [hb, hb']
      · have hb' : (hd.1 == id') = false := by simp [hh']
        simp [hb, hb', ih]

/-- Caller-observed ledger after an engine call: the successor state on
commit, the unchanged input state on a thrown error (the Firestore
transaction aborts every write of the block). -/
def resultingState {α : Type} (s : LedgerState)
    (r : Except LedgerError (LedgerState × α)) : LedgerState :=
  match r with
  | .ok (s', _) => s'
  | .error _ => s

/-- C4: cancelTransaction fails InvalidCancellationTarget on a cancellation
source and AlreadyCancelled on a transaction whose cancelledAt is already
set — in particular on a second call for an id already cancelled by a first
successful call — and every such conflict is raised before any write, so the
ledger is unchanged. -/
theorem cancelTransaction_conflicts (s : LedgerState) (id : Nat)
    (cid cname cid2 cname2 : String) :
    (∀ original, getTransactionById s id = some original →
      original.source = .cancellation →
      createCancellationAndUpdateBalance s id cid cname =
        .error .invalidCancellationTarget ∧
      resultingState s (createCancellationAndUpdateBalance s id cid cname) = s) ∧
    (∀ original, getTransactionById s id = some original →
      original.source ≠ .cancellation →
      original.cancelledAt.isSome = true →
      createCancellationAndUpdateBalance s id cid cname = .error .alreadyCancelled ∧
      resultingState s (createCancellationAndUpdateBalance s id cid cname) = s) ∧
    (∀ s₁ rid, createCancellationAndUpdateBalance s id cid cname = .ok (s₁, rid) →
      createCancellationAndUpdateBalance s₁ id cid2 cname2 =
        .error .alreadyCancelled ∧
      resultingState s₁ (createCancellationAndUpdateBalance s₁ id cid2 cname2) = s₁) := by
  refine ⟨?_, ?_, ?_⟩
  · intro original h hsrc
    have he : createCancellationAndUpdateBalance s id cid cname =
        .error .invalidCancellationTarget := by
      simp [createCancellationAndUpdateBalance, h, hsrc]
    exact ⟨he, by rw [he] ; rfl⟩
  · intro original h hsrc hcanc
    have he : createCancellationAndUpdateBalance s id cid cname =
        .error .alreadyCancelled := by
      simp [createCancellationAndUpdateBalance, h, hsrc, hcanc]
    exact ⟨he, by rw [he] ; rfl⟩
  · intro s₁ rid hrun
    rcases horig : getTransactionById s id with _ | original
    · simp [createCancellationAndUpdateBalance, horig] at hrun
    · simp only [createCancellationAndUpdateBalance, horig] at hrun
      by_cases hsrc : original.source = .cancellation
      · simp [hsrc] at hrun
      · by_cases hcanc : original.cancelledAt.isSome = true
        · simp [hsrc, hcanc] at hrun
        · rcases hacct : getAccountBySlug s original.accountSlug with _ | account
          · simp [hsrc, hcanc, hacct] at hrun
          · simp only [if_neg hsrc, hcanc, hacct] at hrun
            simp only [Bool.false_eq_true, if_false, Except.ok.injEq, Prod.mk.injEq] at hrun
            obtain ⟨hs₁, hrid⟩ := hrun
            have hfind : getTransactionById s₁ id =
                some { original with cancelledAt := some s.now
                                     cancelledByTxnId := some s.nextId } := by
              rw [← hs₁]
              show findTransaction _ id = _
              rw [findTransaction_append, findTransaction_update_self,
                show findTransaction s.transactions id = some original from horig]
              rfl
            have he : createCancellationAndUpdateBalance s₁ id cid2 cname2 =
                .error .alreadyCancelled := by
              simp [createCancellationAndUpdateBalance, hfind, hsrc]
            exact ⟨he, by rw [he] ; rfl⟩

theorem findTransaction_eq_none {l : List (Nat × Transaction)} {n : Nat}
    (h : ∀ p ∈ l, p.1 ≠ n) : findTransaction l n = none := by
  have : l.find? (fun p => p.1 == n) = none := by
    rw [List.find?_eq_none]
    intro x hx
    simp [h x hx]
  simp [findTransaction, this]

theorem findTransaction_some_key {l : List (Nat × Transaction)} {n : Nat}
    {t : Transaction} (h : findTransaction l n = some t) :
    ∃ p ∈ l, p.1 = n ∧ p.2 = t := by
  rcases hf : l.find? (fun p => p.1 == n) with _ | p
  · simp [findTransaction, hf] at h
  · have hp := List.find?_some hf
    have hmem := List.mem_of_find?_eq_some hf
    simp [findTransaction, hf] at h
    exact ⟨p, hmem, by simpa using hp, h⟩

theorem updateTransactionDoc_fresh {l : List (Nat × Transaction)} {id : Nat}
    {f : Transaction → Transaction} {n : Nat} (h : ∀ p ∈ l, p.1 ≠ n) :
    ∀ p ∈ updateTransactionDoc l id f, p.1 ≠ n := by
  intro p hp
  simp only [updateTransactionDoc, List.mem_map] at hp
  obtain ⟨q, hq, hqe⟩ := hp
  have : p.1 = q.1 := by
    subst hqe
    by_cases hb : q.1 == id <;> simp [hb]
  rw [this]
  exact h q hq

/-- C5 (amended with the distinct-account hypothesis on the two legs): as
frozen the claim quantifies over every leg id, including the legs of an
engine-reachable same-account transfer pair, where the two balance writes of
the cancellation hit the same account document and the later write wins, so
only the linked leg's amount is subtracted — the counterexample exhibits
this. With the legs on distinct accounts: cancelTransfer on either leg of an
uncancelled transfer pair referencing each other atomically appends two
cross-linked reversal legs, each negating its original leg's amount and
pointing back at it through cancelledTransactionId, marks both original legs
with cancelledAt and cancelledByTxnId, and subtracts each original leg's
amount from its account's balance; a non-transfer source or a missing
linkedTransactionId fails NotATransfer, and a cancelled leg on either side
fails AlreadyCancelled, in each case before any write (ledger unchanged). -/
theorem cancelTransfer_spec (s : LedgerState) (legId : Nat)
    (cid cname : String) :
    (∀ original, getTransactionById s legId = some original →
      (original.source ≠ .transfer ∨ original.linkedTransactionId = none) →
      createTransferCancellation s legId cid cname = .error .notATransfer ∧
      resultingState s (createTransferCancellation s legId cid cname) = s) ∧
    (∀ original linkedId linked, getTransactionById s legId = some original →
      original.source = .transfer →
      original.linkedTransactionId = some linkedId →
      getTransactionById s linkedId = some linked →
      (original.cancelledAt.isSome = true ∨ linked.cancelledAt.isSome = true) →
      createTransferCancellation s legId cid cname = .error .alreadyCancelled ∧
      resultingState s (createTransferCancellation s legId cid cname) = s) ∧
    (∀ original linkedId linked fromAccount toAccount,
      getTransactionById s legId = some original →
      original.source = .transfer →
      original.linkedTransactionId = some linkedId →
      getTransactionById s linkedId = some linked →
      original.cancelledAt = none →
      linked.cancelledAt = none →
      getAccountBySlug s original.accountSlug = some fromAccount →
      getAccountBySlug s linked.accountSlug = some toAccount →
      original.accountSlug ≠ linked.accountSlug →
      legId ≠ linkedId →
      (∀ p ∈ s.transactions, p.1 < s.nextId) →
      ∃ s' fromCancelTxn toCancelTxn,
        createTransferCancellation s legId cid cname =
          .ok (s', (s.nextId, s.nextId + 1)) ∧
        getTransactionById s' s.nextId = some fromCancelTxn ∧
        getTransactionById s' (s.nextId + 1) = some toCancelTxn ∧
        fromCancelTxn.amount = -original.amount ∧
        fromCancelTxn.linkedTransactionId = some (s.nextId + 1) ∧
        fromCancelTxn.cancelledTransactionId = some legId ∧
        fromCancelTxn.source = .cancellation ∧
        toCancelTxn.amount = -linked.amount ∧
        toCancelTxn.linkedTransactionId = some s.nextId ∧
        toCancelTxn.cancelledTransactionId = some linkedId ∧
        toCancelTxn.source = .cancellation ∧
        getTransactionById s' legId =
          some { original with cancelledAt := some s.now
                               cancelledByTxnId := some s.nextId } ∧
        getTransactionById s' linkedId =
          some { linked with cancelledAt := some s.now
                             cancelledByTxnId := some (s.nextId + 1) } ∧
        getAccountBySlug s' original.accountSlug =
          some { fromAccount with balance := fromAccount.balance - original.amount } ∧
        getAccountBySlug s' linked.accountSlug =
          some { toAccount with balance := toAccount.balance - linked.amount }) := by
  refine ⟨?_, ?_, ?_⟩
  · intro original h hbad
    have he : createTransferCancellation s legId cid cname = .error .notATransfer := by
      rcases hbad with hbad | hbad
      · simp [createTransferCancellation, h, hbad]
      · by_cases hsrc : original.source = .transfer
        · simp [createTransferCancellation, h, hsrc, hbad]
        · simp [createTransferCancellation, h, hsrc]
    exact ⟨he, by rw [he] ; rfl⟩
  · intro original linkedId linked h hsrc hlink hlinked hcanc
    have he : createTransferCancellation s legId cid cname =
        .error .alreadyCancelled := by
      have hns : ¬original.source ≠ .transfer := fun hc => hc hsrc
      simp only [createTransferCancellation, h, if_neg hns, hlink, hlinked]
      rcases hcanc with hc | hc <;> simp [hc]
    exact ⟨he, by rw [he] ; rfl⟩
  · intro original linkedId linked fromAccount toAccount h hsrc hlink hlinked hc1 hc2
      hacct1 hacct2 hslug hne hfresh
    have hns : ¬original.source ≠ .transfer := fun hc => hc hsrc
    have hcond : ¬(original.cancelledAt.isSome = true ∨ linked.cancelledAt.isSome = true) := by
      simp [hc1, hc2]
    simp only [createTransferCancellation, h, if_neg hns, hlink, hlinked,
      if_neg hcond, hacct1, hacct2]
    have hlegIdLt : legId < s.nextId := by
      obtain ⟨p, hp, hpk, -⟩ := findTransaction_some_key h
      exact hpk ▸ hfresh p hp
    have hlinkedIdLt : linkedId < s.nextId := by
      obtain ⟨p, hp, hpk, -⟩ := findTransaction_some_key hlinked
      exact hpk ▸ hfresh p hp
    have hfresh1 : ∀ p ∈ s.transactions, p.1 ≠ s.nextId :=
      fun p hp => Nat.ne_of_lt (hfresh p hp)
    have hfresh2 : ∀ p ∈ s.transactions, p.1 ≠ s.nextId + 1 :=
      fun p hp => Nat.ne_of_lt (Nat.lt_succ_of_lt (hfresh p hp))
    refine ⟨_,
      { accountSlug := original.accountSlug, amount := -original.amount
        currency := original.currency, description := none
        source := .cancellation, createdAt := s.now, createdById := cid
        createdByName := cname
        balanceAfter := some (fromAccount.balance - original.amount)
        entryType := none, linkedTransactionId := some (s.nextId + 1)
        transferType := none, cancelledTransactionId := some legId
        cancelledAt := none, cancelledByTxnId := none },
      { accountSlug := linked.accountSlug, amount := -linked.amount
        currency := linked.currency, description := none
        source := .cancellation, createdAt := s.now, createdById := cid
        createdByName := cname
        balanceAfter := some (toAccount.balance - linked.amount)
        entryType := none, linkedTransactionId := some s.nextId
        transferType := none, cancelledTransactionId := some linkedId
        cancelledAt := none, cancelledByTxnId := none },
      rfl, ?_, ?_, rfl, rfl, rfl, rfl, rfl, rfl, rfl, rfl, ?_, ?_, ?_, ?_⟩
    · show findTransaction _ (s.nextId) = _
      rw [findTransaction_append,
        findTransaction_eq_none
          (updateTransactionDoc_fresh (updateTransactionDoc_fresh hfresh1)),
        findTransaction_cons]
      simp
    · show findTransaction _ (s.nextId + 1) = _
      rw [findTransaction_append,
        findTransaction_eq_none
          (updateTransactionDoc_fresh (updateTransactionDoc_fresh hfresh2)),
        findTransaction_cons, findTransaction_cons]
      simp
    · show findTransaction _ legId = _
      rw [findTransaction_append, findTransaction_update_ne _ _ _ _ hne,
        findTransaction_update_self,
        show findTransaction s.transactions legId = some original from h]
      simp [hlink]
    · show findTransaction _ linkedId = _
      rw [findTransaction_append, findTransaction_update_self,
        findTransaction_update_ne _ _ _ _ (Ne.symm hne),
        show findTransaction s.transactions linkedId = some linked from hlinked]
      rfl
    · show findAccount _ original.accountSlug = _
      rw [findAccount_setAccountBalance_ne _ _ _ _ hslug]
      exact findAccount_setAccountBalance_self s.accounts original.accountSlug
        (fromAccount.balance - original.amount) fromAccount hacct1
    · show findAccount _ linked.accountSlug = _
      refine findAccount_setAccountBalance_self _ linked.accountSlug
        (toAccount.balance - linked.amount) toAccount ?_
      rw [findAccount_setAccountBalance_ne _ _ _ _ (Ne.symm hslug)]
      exact hacct2

/-- Ledger obtained from the demo ledger by the scenario transfer: two
accounts and the two cross-linked transfer legs with ids 0 and 1. -/
def transferLedger : LedgerState :=
  resultingState demoLedger (createTransferAndUpdateBalances demoLedger rentTransferData)

/-- The outgoing leg stored by the demo transfer. -/
def demoOutgoingLeg : Transaction :=
  { accountSlug := ("cash"), amount := -5000, currency := ("EUR")
    description := some ("Rent"), source := .transfer, createdAt := 0
    createdById := ("actorX"), createdByName := ("Actor X")
    balanceAfter := some (-5000), entryType := none
    linkedTransactionId := some 1, transferType := some .outgoing
    cancelledTransactionId := none, cancelledAt := none, cancelledByTxnId := none }

/-- The incoming leg stored by the demo transfer. -/
def demoIncomingLeg : Transaction :=
  { accountSlug := ("card"), amount := 5500, currency := ("USD")
    description := some ("Rent"), source := .transfer, createdAt := 0
    createdById := ("actorX"), createdByName := ("Actor X")
    balanceAfter := some 6500, entryType := none
    linkedTransactionId := some 0, transferType := some .incoming
    cancelledTransactionId := none, cancelledAt := none, cancelledByTxnId := none }

/-- Witness for C5: cancelling the demo transfer through its outgoing leg
writes reversal legs of 5000 and -5500 and returns both balances to their
pre-transfer values. -/
theorem cancelTransfer_spec_witness :
    ∃ (s' : LedgerState) (ft tt : Transaction),
      createTransferCancellation transferLedger 0 ("actorY") ("Actor Y") =
        .ok (s', (2, 3)) ∧
      ft.amount = 5000 ∧
      tt.amount = -5500 ∧
      getAccountBySlug s' ("cash") = some { cashAccount with balance := 0 } ∧
      getAccountBySlug s' ("card") = some { cardAccount with balance := 1000 } := by
  obtain ⟨s', ft, tt, h1, _, _, hfa, _, _, _, hta, _, _, _, _, _, hb1, hb2⟩ :=
    (cancelTransfer_spec transferLedger 0 ("actorY") ("Actor Y")).2.2
      demoOutgoingLeg 1 demoIncomingLeg
      { cashAccount with balance := -5000 } { cardAccount with balance := 6500 }
      (by decide) (by decide) (by decide) (by decide) (by decide) (by decide)
      (by decide) (by decide) (by decide) (by decide) (by decide)
  refine ⟨s', ft, tt, h1, ?_, ?_, ?_, ?_⟩
  · rw [hfa] ; decide
  · rw [hta] ; decide
  · exact hb1
  · exact hb2

/-- C6: recordTransaction of any amount followed by cancelTransaction of the
returned id (with a resolvable account, a non-cancellation source and fresh
ids) commits both operations and returns the account's stored balance to
exactly its value before the recordTransaction. -/
theorem add_then_cancel_roundtrip (s : LedgerState) (data : CreateTransactionData)
    (cid cname : String) (account : Account)
    (h : getAccountBySlug s data.accountSlug = some account)
    (hsrc : data.source ≠ .cancellation)
    (hfresh : ∀ p ∈ s.transactions, p.1 < s.nextId) :
    ∃ s₁ id s₂ rid a,
      createTransactionAndUpdateBalance s data = .ok (s₁, id) ∧
      createCancellationAndUpdateBalance s₁ id cid cname = .ok (s₂, rid) ∧
      getAccountBySlug s₂ data.accountSlug = some a ∧
      a.balance = account.balance := by
  have hfresh1 : ∀ p ∈ s.transactions, p.1 ≠ s.nextId :=
    fun p hp => Nat.ne_of_lt (hfresh p hp)
  cases hrun1 : createTransactionAndUpdateBalance s data with
  | error e =>
    exfalso
    simp [createTransactionAndUpdateBalance, h] at hrun1
  | ok r =>
    obtain ⟨s₁, id⟩ := r
    simp only [createTransactionAndUpdateBalance, h, Except.ok.injEq,
      Prod.mk.injEq] at hrun1
    obtain ⟨hs₁, hid⟩ := hrun1
    subst hid
    have hlook : getTransactionById s₁ s.nextId = some
        { accountSlug := data.accountSlug
          amount := data.amount
          currency := data.currency
          description := data.description
          source := data.source
          createdAt := s.now
          createdById := data.createdById
          createdByName := data.createdByName
          balanceAfter := some (account.balance + data.amount)
          entryType := none
          linkedTransactionId := none
          transferType := none
          cancelledTransactionId := none
          cancelledAt := none
          cancelledByTxnId := none } := by
      rw [← hs₁]
      show findTransaction _ _ = _
      rw [findTransaction_append, findTransaction_eq_none hfresh1,
        findTransaction_cons]
      simp
    have hacct1 : getAccountBySlug s₁ data.accountSlug =
        some { account with balance := account.balance + data.amount } := by
      rw [← hs₁]
      exact findAccount_setAccountBalance_self s.accounts data.accountSlug
        (account.balance + data.amount) account h
    cases hrun2 : createCancellationAndUpdateBalance s₁ s.nextId cid cname with
    | error e =>
      exfalso
      simp [createCancellationAndUpdateBalance, hlook, hsrc, hacct1] at hrun2
    | ok r2 =>
      obtain ⟨s₂, rid⟩ := r2
      have hkeep2 := hrun2
      simp only [createCancellationAndUpdateBalance, hlook, hsrc,
        if_false, Option.isSome_none, Bool.false_eq_true, hacct1,
        Except.ok.injEq, Prod.mk.injEq, if_neg hsrc] at hrun2
      obtain ⟨hs₂, hrid⟩ := hrun2
      refine ⟨s₁, s.nextId, s₂, rid,
        { account with balance := account.balance + data.amount + -data.amount },
        rfl, hkeep2, ?_, ?_⟩
      · rw [← hs₂]
        exact findAccount_setAccountBalance_self s₁.accounts data.accountSlug
          (account.balance + data.amount + -data.amount)
          { account with balance := account.balance + data.amount } hacct1
      · show account.balance + data.amount + -data.amount = account.balance
        ring

/-- Witness for C6: on the demo ledger, adding 500 to cash and cancelling the
returned id restores the stored balance 0. -/
theorem add_then_cancel_roundtrip_witness :
    ∃ s₁ id s₂ rid a,
      createTransactionAndUpdateBalance demoLedger
        { groceriesData with amount := 500 } = .ok (s₁, id) ∧
      createCancellationAndUpdateBalance s₁ id ("actorX") ("Actor X") =
        .ok (s₂, rid) ∧
      getAccountBySlug s₂ ("cash") = some a ∧
      a.balance = 0 := by
  obtain ⟨s₁, id, s₂, rid, a, h1, h2, h3, h4⟩ :=
    add_then_cancel_roundtrip demoLedger { groceriesData with amount := 500 }
      ("actorX") ("Actor X") cashAccount (by decide) (by decide)
      (by intro p hp ; simp [demoLedger] at hp)
  exact ⟨s₁, id, s₂, rid, a, h1, h2, h3, h4⟩

/-- Demo ledger after recording the Groceries transaction (id 0). -/
def addedLedger : LedgerState :=
  resultingState demoLedger (createTransactionAndUpdateBalance demoLedger groceriesData)

/-- Demo ledger after additionally cancelling transaction 0 (reversal id 1). -/
def cancelledLedger : LedgerState :=
  resultingState addedLedger
    (createCancellationAndUpdateBalance addedLedger 0 ("actorX") ("Actor X"))

/-- The Groceries transaction as stored in cancelledLedger: marked cancelled
by reversal 1. -/
def demoCancelledGroceries : Transaction :=
  { accountSlug := ("cash"), amount := 10050, currency := ("EUR")
    description := some ("Groceries"), source := .manual, createdAt := 0
    createdById := ("actorX"), createdByName := ("Actor X")
    balanceAfter := some 10050, entryType := none
    linkedTransactionId := none, transferType := none
    cancelledTransactionId := none, cancelledAt := some 1
    cancelledByTxnId := some 1 }

/-- The reversal transaction stored in cancelledLedger under id 1. -/
def demoReversalTxn : Transaction :=
  { accountSlug := ("cash"), amount := -10050, currency := ("EUR")
    description := none, source := .cancellation, createdAt := 1
    createdById := ("actorX"), createdByName := ("Actor X")
    balanceAfter := some 0, entryType := none
    linkedTransactionId := none, transferType := none
    cancelledTransactionId := some 0, cancelledAt := none
    cancelledByTxnId := none }

/-- Witness for C4: in the demo ledger where transaction 0 is already
cancelled and transaction 1 is the cancellation, cancelling 1 fails
InvalidCancellationTarget and cancelling 0 again fails AlreadyCancelled. -/
theorem cancelTransaction_conflicts_witness :
    createCancellationAndUpdateBalance cancelledLedger 1 ("actorY") ("Actor Y") =
      .error .invalidCancellationTarget ∧
    createCancellationAndUpdateBalance cancelledLedger 0 ("actorY") ("Actor Y") =
      .error .alreadyCancelled := by
  constructor
  · exact ((cancelTransaction_conflicts cancelledLedger 1 ("actorY") ("Actor Y")
      ("actorY") ("Actor Y")).1 demoReversalTxn (by decide) (by decide)).1
  · exact ((cancelTransaction_conflicts cancelledLedger 0 ("actorY") ("Actor Y")
      ("actorY") ("Actor Y")).2.1 demoCancelledGroceries (by decide) (by decide)
      (by decide)).1

/-- Modelled from the spec: the replay invariant in the specification's
words — every stored balanceAfter equals the running sum of amounts up to
that transaction, starting from the given accumulator. Used to compare the
code's verifyAccountIntegrity against the specified meaning. -/
def replayConsistent : Int → List (Nat × Transaction) → Bool
  | _, [] => true
  | acc, p :: rest =>
    (p.2.balanceAfter == some (acc + p.2.amount)) &&
      replayConsistent (acc + p.2.amount) rest

/-- Sum of the amounts of a transaction list. -/
def sumAmounts (l : List (Nat × Transaction)) : Int :=
  (l.map (fun p => p.2.amount)).sum

theorem sumAmounts_nil : sumAmounts [] = 0 := rfl

theorem sumAmounts_cons (p : Nat × Transaction) (l : List (Nat × Transaction)) :
    sumAmounts (p :: l) = p.2.amount + sumAmounts l := by
  simp [sumAmounts]

theorem sumAmounts_append (l₁ l₂ : List (Nat × Transaction)) :
    sumAmounts (l₁ ++ l₂) = sumAmounts l₁ + sumAmounts l₂ := by
  simp [sumAmounts]

theorem replayConsistent_append (l₁ l₂ : List (Nat × Transaction)) (acc : Int) :
    replayConsistent acc (l₁ ++ l₂) =
      (replayConsistent acc l₁ && replayConsistent (acc + sumAmounts l₁) l₂) := by
  induction l₁ generalizing acc with
  | nil => simp [replayConsistent, sumAmounts_nil]
  | cons p rest ih =>
    have hi := ih (acc + p.2.amount)
    simp only [List.cons_append, replayConsistent, List.append_eq, hi,
      sumAmounts_cons, Bool.and_assoc]
    rw [← Int.add_assoc]

/-- Full characterization of the replay loop: a success returns the
accumulator plus the sum of amounts and means the list is replay-consistent;
an error decomposes the list at the first inconsistent transaction and
carries that transaction's id, the expected running sum and the stored
snapshot. -/
theorem replayBalance_spec : ∀ (l : List (Nat × Transaction)) (acc : Int),
    (∀ b, replayBalance l acc = .ok b →
      replayConsistent acc l = true ∧ b = acc + sumAmounts l) ∧
    (replayConsistent acc l = true → replayBalance l acc = .ok (acc + sumAmounts l)) ∧
    (∀ id expected actual, replayBalance l acc = .error (id, expected, actual) →
      ∃ l₁ p l₂, l = l₁ ++ p :: l₂ ∧ replayConsistent acc l₁ = true ∧ p.1 = id ∧
        expected = acc + sumAmounts l₁ + p.2.amount ∧ actual = p.2.balanceAfter ∧
        p.2.balanceAfter ≠ some expected)
  | [], acc => by
    refine ⟨?_, ?_, ?_⟩
    · intro b hb
      simp [replayBalance] at hb
      simp [replayConsistent, sumAmounts_nil, hb]
    · intro _
      simp [replayBalance, sumAmounts_nil]
    · intro id expected actual hb
      simp [replayBalance] at hb
  | p :: rest, acc => by
    by_cases hmis : p.2.balanceAfter ≠ some (acc + p.2.amount)
    · refine ⟨?_, ?_, ?_⟩
      · intro b hb
        simp [replayBalance, hmis] at hb
      · intro hc
        simp only [replayConsistent, Bool.and_eq_true, beq_iff_eq] at hc
        exact absurd hc.1 hmis
      · intro id expected actual hb
        simp only [replayBalance, if_pos hmis, Except.error.injEq,
          Prod.mk.injEq] at hb
        obtain ⟨h1, h2, h3⟩ := hb
        refine ⟨[], p, rest, rfl, rfl, h1, ?_, h3.symm, ?_⟩
        · rw [← h2]
          simp [sumAmounts_nil]
        · rw [← h2]
          exact hmis
    · have heq : p.2.balanceAfter = some (acc + p.2.amount) := not_not.mp hmis
      have ih := replayBalance_spec rest (acc + p.2.amount)
      refine ⟨?_, ?_, ?_⟩
      · intro b hb
        simp only [replayBalance, if_neg hmis] at hb
        obtain ⟨hc, hsum⟩ := ih.1 b hb
        refine ⟨?_, ?_⟩
        · simp [replayConsistent, heq, hc]
        · rw [hsum, sumAmounts_cons]
          ring
      · intro hc
        simp only [replayConsistent, Bool.and_eq_true, beq_iff_eq] at hc
        simp only [replayBalance, if_neg hmis]
        rw [ih.2.1 hc.2, sumAmounts_cons]
        congr 1
        ring
      · intro id expected actual hb
        simp only [replayBalance, if_neg hmis] at hb
        obtain ⟨l₁, q, l₂, hsplit, hcons, hid, hexp, hact, hneq⟩ :=
          ih.2.2 id expected actual hb
        refine ⟨p :: l₁, q, l₂, by rw [hsplit, List.cons_append], ?_, hid, ?_, hact, hneq⟩
        · simp [replayConsistent, heq, hcons]
        · rw [hexp, sumAmounts_cons]
          ring

/-- C7: with a resolvable slug, verifyIntegrity passes exactly when every
stored balanceAfter equals the running sum of amounts in creation order and
the final sum equals the stored account balance; when a snapshot mismatch
exists it stops at the first offending transaction, reporting that
transaction's id together with the expected running sum and the stored
actual value; and the boolean result is true exactly on pass. -/
theorem verifyIntegrity_spec (s : LedgerState) (slug : String) (account : Account)
    (h : getAccountBySlug s slug = some account) :
    (verifyAccountIntegrity s slug = .pass ↔
      (replayConsistent 0 (transactionsFor s.transactions slug) = true ∧
        sumAmounts (transactionsFor s.transactions slug) = account.balance)) ∧
    (∀ id expected actual,
      verifyAccountIntegrity s slug = .transactionMismatch id expected actual →
      ∃ l₁ p l₂,
        transactionsFor s.transactions slug = l₁ ++ p :: l₂ ∧
        replayConsistent 0 l₁ = true ∧
        p.1 = id ∧
        expected = sumAmounts l₁ + p.2.amount ∧
        actual = p.2.balanceAfter ∧
        p.2.balanceAfter ≠ some expected) ∧
    (verifyAccountIntegrityBool s slug = true ↔ verifyAccountIntegrity s slug = .pass) := by
  refine ⟨?_, ?_, ?_⟩
  · constructor
    · intro hp
      simp only [verifyAccountIntegrity, h] at hp
      rcases hb : replayBalance (transactionsFor s.transactions slug) 0 with e | b
      · rw [hb] at hp
        rcases e with ⟨id, expected, actual⟩
        simp at hp
      · rw [hb] at hp
        obtain ⟨hc, hsum⟩ := (replayBalance_spec _ 0).1 b hb
        by_cases hbal : b ≠ account.balance
        · simp [hbal] at hp
        · have : b = account.balance := not_not.mp hbal
          refine ⟨hc, ?_⟩
          rw [← this, hsum]
          ring
    · intro ⟨hc, hsum⟩
      have hb := (replayBalance_spec (transactionsFor s.transactions slug) 0).2.1 hc
      simp only [verifyAccountIntegrity, h, hb]
      have : (0 : Int) + sumAmounts (transactionsFor s.transactions slug) =
          account.balance := by rw [← hsum] ; ring
      simp [this]
  · intro id expected actual hp
    simp only [verifyAccountIntegrity, h] at hp
    rcases hb : replayBalance (transactionsFor s.transactions slug) 0 with e | b
    · rw [hb] at hp
      rcases e with ⟨eid, eexpected, eactual⟩
      simp only [Except.error.injEq, IntegrityResult.transactionMismatch.injEq] at hp
      obtain ⟨h1, h2, h3⟩ := hp
      obtain ⟨l₁, p, l₂, hsplit, hcons, hid, hexp, hact, hneq⟩ :=
        (replayBalance_spec _ 0).2.2 eid eexpected eactual hb
      refine ⟨l₁, p, l₂, hsplit, hcons, by rw [← h1, hid], ?_, by rw [← h3, hact], ?_⟩
      · rw [← h2, hexp]
        ring
      · rw [← h2]
        exact hneq
    · rw [hb] at hp
      by_cases hbal : b ≠ account.balance
      · simp [hbal] at hp
      · simp [not_not.mp hbal] at hp
  · simp only [verifyAccountIntegrityBool]
    rcases hv : verifyAccountIntegrity s slug with _ | _ | _ | _ <;> simp

/-- Witness for C7: the demo ledger after the Groceries transaction passes
verifyIntegrity for cash, via the replay characterization. -/
theorem verifyIntegrity_spec_witness :
    verifyAccountIntegrity addedLedger ("cash") = .pass :=
  (verifyIntegrity_spec addedLedger ("cash") { cashAccount with balance := 10050 }
    (by decide)).1.mpr ⟨by decide, by decide⟩

/-! Lemmas relating per-account transaction lists to appends and updates. -/

theorem transactionsFor_append (l₁ l₂ : List (Nat × Transaction)) (slug : String) :
    transactionsFor (l₁ ++ l₂) slug =
      transactionsFor l₁ slug ++ transactionsFor l₂ slug := by
  simp [transactionsFor, List.filter_append]

theorem transactionsFor_singleton (id : Nat) (t : Transaction) (slug : String) :
    transactionsFor [(id, t)] slug =
      if t.accountSlug = slug then [(id, t)] else [] := by
  by_cases h : t.accountSlug = slug
  · have hb : (t.accountSlug == slug) = true := by simp [h]
    simp [transactionsFor, hb, h]
  · have hb : (t.accountSlug == slug) = false := by simp [h]
    simp [transactionsFor, hb, h]

theorem transactionsFor_update (l : List (Nat × Transaction)) (id : Nat)
    (f : Transaction → Transaction) (slug : String)
    (hf : ∀ t, (f t).accountSlug = t.accountSlug) :
    transactionsFor (updateTransactionDoc l id f) slug =
      updateTransactionDoc (transactionsFor l slug) id f := by
  have hpred : ((fun p : Nat × Transaction => p.2.accountSlug == slug) ∘
      (fun p : Nat × Transaction => if p.1 == id then (p.1, f p.2) else p)) =
      (fun p : Nat × Transaction => p.2.accountSlug == slug) := by
    funext q
    by_cases hq : q.1 = id <;> simp [hq, hf]
  show List.filter _ (List.map _ l) = _
  rw [List.filter_map, hpred]
  rfl

theorem replayConsistent_update (l : List (Nat × Transaction)) (id : Nat)
    (f : Transaction → Transaction) (acc : Int)
    (hamt : ∀ t, (f t).amount = t.amount)
    (hba : ∀ t, (f t).balanceAfter = t.balanceAfter) :
    replayConsistent acc (updateTransactionDoc l id f) = replayConsistent acc l := by
  induction l generalizing acc with
  | nil => rfl
  | cons hd tl ih =>
    rw [updateTransactionDoc_cons]
    by_cases hid : hd.1 = id
    · have hb : (hd.1 == id) = true := by simp [hid]
      simp only [if_pos (by simp [hid] : (hd.1 == id) = true)]
      simp [replayConsistent, hamt, hba, ih]
    · simp only [if_neg (by simp [hid] : ¬(hd.1 == id) = true)]
      simp [replayConsistent, ih]

theorem sumAmounts_update (l : List (Nat × Transaction)) (id : Nat)
    (f : Transaction → Transaction)
    (hamt : ∀ t, (f t).amount = t.amount) :
    sumAmounts (updateTransactionDoc l id f) = sumAmounts l := by
  induction l with
  | nil => rfl
  | cons hd tl ih =>
    rw [updateTransactionDoc_cons]
    by_cases hid : hd.1 = id
    · simp only [if_pos (by simp [hid] : (hd.1 == id) = true)]
      simp [sumAmounts_cons, hamt, ih]
    · simp only [if_neg (by simp [hid] : ¬(hd.1 == id) = true)]
      simp [sumAmounts_cons, ih]

/-- Modelled from the spec: the per-account invariant in the claim's words —
the stored balance equals the sum of the account's transaction amounts, and
every stored balanceAfter equals the running sum in creation order. -/
def AccountOk (s : LedgerState) (a : Account) : Prop :=
  replayConsistent 0 (transactionsFor s.transactions a.slug) = true ∧
  sumAmounts (transactionsFor s.transactions a.slug) = a.balance

/-- Structural well-formedness of a ledger state, as the engine maintains
it: every resolvable account satisfies the replay invariant, every document
id and every linkedTransactionId is below the id allocator, and the two legs
of a stored transfer live on different accounts (transfers are only created
by createTransferAndUpdateBalances, and the transfer flow refuses a
same-account destination). -/
def Inv (s : LedgerState) : Prop :=
  (∀ a ∈ s.accounts, getAccountBySlug s a.slug = some a → AccountOk s a) ∧
  (∀ p ∈ s.transactions, p.1 < s.nextId) ∧
  (∀ p ∈ s.transactions, ∀ lid ∈ p.2.linkedTransactionId.toList, lid < s.nextId) ∧
  (∀ p ∈ s.transactions, ∀ q ∈ s.transactions,
    p.2.source = .transfer → p.2.linkedTransactionId = some q.1 →
    q.2.accountSlug ≠ p.2.accountSlug)

theorem inv_accountOk {s : LedgerState} {slug : String} {a : Account}
    (hInv : Inv s) (h : getAccountBySlug s slug = some a) : AccountOk s a := by
  have hmem : a ∈ s.accounts := findAccount_some_mem h
  have hslug : a.slug = slug := findAccount_some_slug h
  exact hInv.1 a hmem (by rw [hslug] ; exact h)

theorem accountOk_extend (l : List (Nat × Transaction)) (slug : String)
    (balance : Int) (newId : Nat) (t : Transaction)
    (hreplay : replayConsistent 0 (transactionsFor l slug) = true)
    (hsum : sumAmounts (transactionsFor l slug) = balance)
    (hslug : t.accountSlug = slug)
    (hba : t.balanceAfter = some (balance + t.amount)) :
    replayConsistent 0 (transactionsFor (l ++ [(newId, t)]) slug) = true ∧
    sumAmounts (transactionsFor (l ++ [(newId, t)]) slug) = balance + t.amount := by
  rw [transactionsFor_append, transactionsFor_singleton, if_pos hslug]
  constructor
  · rw [replayConsistent_append, Bool.and_eq_true]
    refine ⟨hreplay, ?_⟩
    have harith : (0 : Int) + sumAmounts (transactionsFor l slug) + t.amount =
        balance + t.amount := by rw [hsum] ; ring
    simp [replayConsistent, hba, harith]
    omega
  · rw [sumAmounts_append, hsum]
    simp [sumAmounts]

theorem transactionsFor_extend_other (l : List (Nat × Transaction))
    (slug : String) (newId : Nat) (t : Transaction)
    (hslug : t.accountSlug ≠ slug) :
    transactionsFor (l ++ [(newId, t)]) slug = transactionsFor l slug := by
  rw [transactionsFor_append, transactionsFor_singleton, if_neg hslug,
    List.append_nil]

theorem inv_record (s : LedgerState) (data : CreateTransactionData)
    (hInv : Inv s) :
    Inv (resultingState s (createTransactionAndUpdateBalance s data)) := by
  rcases h : getAccountBySlug s data.accountSlug with _ | account
  · have hs : resultingState s (createTransactionAndUpdateBalance s data) = s := by
      simp [createTransactionAndUpdateBalance, h, resultingState]
    rw [hs]
    exact hInv
  · simp only [createTransactionAndUpdateBalance, h, resultingState]
    have haslug : account.slug = data.accountSlug := findAccount_some_slug h
    refine ⟨?_, ?_, ?_, ?_⟩
    · intro a' hmem' hlook'
      by_cases hslug : a'.slug = data.accountSlug
      · have hset := findAccount_setAccountBalance_self s.accounts data.accountSlug
          (account.balance + data.amount) account h
        have hlook'' : findAccount
            (setAccountBalance s.accounts data.accountSlug
              (account.balance + data.amount)) data.accountSlug = some a' := by
          have hl := hlook'
          rw [hslug] at hl
          exact hl
        rw [hset] at hlook''
        have ha' : a' = { account with balance := account.balance + data.amount } :=
          (Option.some.inj hlook'').symm
        obtain ⟨hrep, hsum⟩ := inv_accountOk hInv h
        have hext := accountOk_extend s.transactions account.slug
          account.balance s.nextId
          { accountSlug := data.accountSlug
            amount := data.amount
            currency := data.currency
            description := data.description
            source := data.source
            createdAt := s.now
            createdById := data.createdById
            createdByName := data.createdByName
            balanceAfter := some (account.balance + data.amount)
            entryType := none
            linkedTransactionId := none
            transferType := none
            cancelledTransactionId := none
            cancelledAt := none
            cancelledByTxnId := none }
          hrep hsum haslug.symm rfl
        subst ha'
        constructor
        · show replayConsistent 0 (transactionsFor _ account.slug) = true
          exact hext.1
        · show sumAmounts (transactionsFor _ account.slug) =
            account.balance + data.amount
          exact hext.2
      · have hlook'' : findAccount s.accounts a'.slug = some a' := by
          rw [← findAccount_setAccountBalance_ne s.accounts data.accountSlug a'.slug
            (account.balance + data.amount) hslug]
          exact hlook'
        obtain ⟨hrep, hsum⟩ := inv_accountOk hInv hlook''
        have hother := transactionsFor_extend_other s.transactions a'.slug
          s.nextId
          { accountSlug := data.accountSlug
            amount := data.amount
            currency := data.currency
            description := data.description
            source := data.source
            createdAt := s.now
            createdById := data.createdById
            createdByName := data.createdByName
            balanceAfter := some (account.balance + data.amount)
            entryType := none
            linkedTransactionId := none
            transferType := none
            cancelledTransactionId := none
            cancelledAt := none
            cancelledByTxnId := none }
          (fun hc => hslug (hc.symm))
        constructor
        · show replayConsistent 0 (transactionsFor _ a'.slug) = true
          rw [hother]
          exact hrep
        · show sumAmounts (transactionsFor _ a'.slug) = a'.balance
          rw [hother]
          exact hsum
    · intro p hp
      rcases List.mem_append.mp hp with hp | hp
      · exact Nat.lt_succ_of_lt (hInv.2.1 p hp)
      · rcases List.mem_singleton.mp hp with rfl
        exact Nat.lt_succ_self _
    · intro p hp lid hlid
      rcases List.mem_append.mp hp with hp | hp
      · exact Nat.lt_succ_of_lt (hInv.2.2.1 p hp lid hlid)
      · rcases List.mem_singleton.mp hp with rfl
        simp at hlid
    · intro p hp q hq hsrc hlink
      rcases List.mem_append.mp hp with hp | hp
      · rcases List.mem_append.mp hq with hq | hq
        · exact hInv.2.2.2 p hp q hq hsrc hlink
        · rcases List.mem_singleton.mp hq with rfl
          exfalso
          have := hInv.2.2.1 p hp s.nextId (by rw [hlink] ; simp)
          exact Nat.lt_irrefl _ this
      · rcases List.mem_singleton.mp hp with rfl
        simp at hlink

theorem append_pair {α : Type} (l : List α) (a b : α) :
    l ++ [a, b] = (l ++ [a]) ++ [b] := by simp

/-- Appending one leg per account to a replay-consistent base list and
setting the two balances accordingly preserves the per-account replay
invariant, for any two distinct slugs. -/
theorem accountOk_two_leg
    (accounts : List Account) (l0 : List (Nat × Transaction))
    (fromSlug toSlug : String) (fromAccount toAccount : Account)
    (A B : Transaction) (n m : Nat) (fb tb : Int)
    (hne : fromSlug ≠ toSlug)
    (hf : findAccount accounts fromSlug = some fromAccount)
    (ht : findAccount accounts toSlug = some toAccount)
    (hbase : ∀ slug a, findAccount accounts slug = some a →
      replayConsistent 0 (transactionsFor l0 slug) = true ∧
      sumAmounts (transactionsFor l0 slug) = a.balance)
    (hAslug : A.accountSlug = fromSlug) (hBslug : B.accountSlug = toSlug)
    (hfb : fb = fromAccount.balance + A.amount)
    (htb : tb = toAccount.balance + B.amount)
    (hAba : A.balanceAfter = some fb)
    (hBba : B.balanceAfter = some tb) :
    ∀ slug a, findAccount
      (setAccountBalance (setAccountBalance accounts fromSlug fb) toSlug tb)
      slug = some a →
      replayConsistent 0 (transactionsFor (l0 ++ [(n, A), (m, B)]) slug) = true ∧
      sumAmounts (transactionsFor (l0 ++ [(n, A), (m, B)]) slug) = a.balance := by
  intro slug a hlook
  rw [append_pair]
  by_cases hsf : slug = fromSlug
  · subst hsf
    rw [findAccount_setAccountBalance_ne _ _ _ _ hne,
      findAccount_setAccountBalance_self accounts slug fb fromAccount hf] at hlook
    have ha : a = { fromAccount with balance := fb } :=
      (Option.some.inj hlook).symm
    obtain ⟨hrep, hsum⟩ := hbase slug fromAccount hf
    have hstep := accountOk_extend l0 slug fromAccount.balance n A hrep hsum hAslug
      (by rw [hAba, hfb])
    have hother := transactionsFor_extend_other (l0 ++ [(n, A)]) slug m B
      (fun hc => hne ((hBslug.symm.trans hc).symm ▸ rfl))
    rw [hother]
    refine ⟨hstep.1, ?_⟩
    rw [hstep.2, ha]
    exact hfb.symm
  · by_cases hst : slug = toSlug
    · subst hst
      rw [findAccount_setAccountBalance_self _ slug tb toAccount
        (by rw [findAccount_setAccountBalance_ne _ _ _ _ (Ne.symm hne)] ; exact ht)]
        at hlook
      have ha : a = { toAccount with balance := tb } :=
        (Option.some.inj hlook).symm
      obtain ⟨hrep, hsum⟩ := hbase slug toAccount ht
      have hother := transactionsFor_extend_other l0 slug n A
        (fun hc => hne ((hAslug.symm.trans hc) ▸ rfl))
      have hstep := accountOk_extend (l0 ++ [(n, A)]) slug toAccount.balance m B
        (by rw [hother] ; exact hrep) (by rw [hother] ; exact hsum) hBslug
        (by rw [hBba, htb])
      refine ⟨hstep.1, ?_⟩
      rw [hstep.2, ha]
      exact htb.symm
    · rw [findAccount_setAccountBalance_ne _ _ _ _ hst,
        findAccount_setAccountBalance_ne _ _ _ _ hsf] at hlook
      obtain ⟨hrep, hsum⟩ := hbase slug a hlook
      have hother1 := transactionsFor_extend_other l0 slug n A
        (fun hc => hsf ((hAslug.symm.trans hc).symm))
      have hother2 := transactionsFor_extend_other (l0 ++ [(n, A)]) slug m B
        (fun hc => hst ((hBslug.symm.trans hc).symm))
      rw [hother2, hother1]
      exact ⟨hrep, hsum⟩

theorem inv_transfer (s : LedgerState) (data : CreateTransferData)
    (hInv : Inv s) (hne : data.fromAccountSlug ≠ data.toAccountSlug) :
    Inv (resultingState s (createTransferAndUpdateBalances s data)) := by
  rcases hf : getAccountBySlug s data.fromAccountSlug with _ | fromAccount
  · have hs : resultingState s (createTransferAndUpdateBalances s data) = s := by
      simp [createTransferAndUpdateBalances, hf, resultingState]
    rw [hs]
    exact hInv
  rcases ht : getAccountBySlug s data.toAccountSlug with _ | toAccount
  · have hs : resultingState s (createTransferAndUpdateBalances s data) = s := by
      simp [createTransferAndUpdateBalances, hf, ht, resultingState]
    rw [hs]
    exact hInv
  simp only [createTransferAndUpdateBalances, hf, ht, resultingState]
  refine ⟨?_, ?_, ?_, ?_⟩
  · intro a' hmem' hlook'
    have hbase : ∀ slug a, findAccount s.accounts slug = some a →
        replayConsistent 0 (transactionsFor s.transactions slug) = true ∧
        sumAmounts (transactionsFor s.transactions slug) = a.balance := by
      intro slug a hsl
      have h1 := inv_accountOk hInv hsl
      have h2 : a.slug = slug := findAccount_some_slug hsl
      rw [← h2]
      exact h1
    refine accountOk_two_leg s.accounts s.transactions
      data.fromAccountSlug data.toAccountSlug fromAccount toAccount
      _ _ s.nextId (s.nextId + 1) _ _
      hne hf ht hbase ?_ ?_ ?_ ?_ ?_ ?_ a'.slug a' hlook'
    · rfl
    · rfl
    · ring
    · rfl
    · rfl
    · rfl
  · intro p hp
    show p.1 < s.nextId + 2
    rcases List.mem_append.mp hp with hp | hp
    · have := hInv.2.1 p hp
      omega
    · simp only [List.mem_cons, List.mem_singleton, List.not_mem_nil, or_false] at hp
      rcases hp with rfl | rfl
      · show s.nextId < s.nextId + 2
        omega
      · show s.nextId + 1 < s.nextId + 2
        omega
  · intro p hp lid hlid
    show lid < s.nextId + 2
    rcases List.mem_append.mp hp with hp | hp
    · have := hInv.2.2.1 p hp lid hlid
      omega
    · simp only [List.mem_cons, List.mem_singleton, List.not_mem_nil, or_false] at hp
      rcases hp with rfl | rfl
      · simp only [Option.toList, List.mem_singleton] at hlid
        omega
      · simp only [Option.toList, List.mem_singleton] at hlid
        omega
  · intro p hp q hq hsrc hlink
    rcases List.mem_append.mp hp with hp | hp
    · rcases List.mem_append.mp hq with hq | hq
      · exact hInv.2.2.2 p hp q hq hsrc hlink
      · exfalso
        have hlt := hInv.2.2.1 p hp q.1 (by rw [hlink] ; simp)
        have hkey := hInv.2.1 p hp
        simp only [List.mem_cons, List.mem_singleton, List.not_mem_nil, or_false] at hq
        rcases hq with rfl | rfl
        · exact Nat.lt_irrefl _ hlt
        · omega
    · simp only [List.mem_cons, List.mem_singleton, List.not_mem_nil, or_false] at hp
      rcases hp with rfl | rfl
      · have hq1 : q.1 = s.nextId + 1 := (Option.some.inj hlink).symm
        rcases List.mem_append.mp hq with hq | hq
        · exfalso
          have := hInv.2.1 q hq
          omega
        · simp only [List.mem_cons, List.mem_singleton, List.not_mem_nil, or_false] at hq
          rcases hq with rfl | rfl
          · exfalso
            simp at hq1
          · intro hc
            exact hne (hc.symm)
      · have hq1 : q.1 = s.nextId := (Option.some.inj hlink).symm
        rcases List.mem_append.mp hq with hq | hq
        · exfalso
          have := hInv.2.1 q hq
          omega
        · simp only [List.mem_cons, List.mem_singleton, List.not_mem_nil, or_false] at hq
          rcases hq with rfl | rfl
          · exact hne
          · exfalso
            simp at hq1

/-- Appending one transaction for one account to a replay-consistent base
list and setting that balance accordingly preserves the per-account replay
invariant. -/
theorem accountOk_one_leg
    (accounts : List Account) (l0 : List (Nat × Transaction))
    (slg : String) (account : Account) (A : Transaction) (n : Nat) (nb : Int)
    (hf : findAccount accounts slg = some account)
    (hbase : ∀ slug a, findAccount accounts slug = some a →
      replayConsistent 0 (transactionsFor l0 slug) = true ∧
      sumAmounts (transactionsFor l0 slug) = a.balance)
    (hAslug : A.accountSlug = slg)
    (hnb : nb = account.balance + A.amount)
    (hAba : A.balanceAfter = some nb) :
    ∀ slug a, findAccount (setAccountBalance accounts slg nb) slug = some a →
      replayConsistent 0 (transactionsFor (l0 ++ [(n, A)]) slug) = true ∧
      sumAmounts (transactionsFor (l0 ++ [(n, A)]) slug) = a.balance := by
  intro slug a hlook
  by_cases hs : slug = slg
  · subst hs
    rw [findAccount_setAccountBalance_self accounts slug nb account hf] at hlook
    have ha : a = { account with balance := nb } := (Option.some.inj hlook).symm
    obtain ⟨hrep, hsum⟩ := hbase slug account hf
    have hstep := accountOk_extend l0 slug account.balance n A hrep hsum hAslug
      (by rw [hAba, hnb])
    refine ⟨hstep.1, ?_⟩
    rw [hstep.2, ha]
    exact hnb.symm
  · rw [findAccount_setAccountBalance_ne _ _ _ _ hs] at hlook
    obtain ⟨hrep, hsum⟩ := hbase slug a hlook
    have hother := transactionsFor_extend_other l0 slug n A
      (fun hc => hs ((hAslug.symm.trans hc).symm))
    rw [hother]
    exact ⟨hrep, hsum⟩

theorem updateTransactionDoc_mem {l : List (Nat × Transaction)} {id : Nat}
    {f : Transaction → Transaction} {p : Nat × Transaction}
    (hp : p ∈ updateTransactionDoc l id f) :
    ∃ q ∈ l, p.1 = q.1 ∧ (p.2 = q.2 ∨ p.2 = f q.2) := by
  simp only [updateTransactionDoc, List.mem_map] at hp
  obtain ⟨q, hq, he⟩ := hp
  by_cases hb : (q.1 == id) = true
  · rw [if_pos hb] at he
    exact ⟨q, hq, by rw [← he], Or.inr (by rw [← he])⟩
  · rw [if_neg hb] at he
    exact ⟨q, hq, by rw [← he], Or.inl (by rw [← he])⟩

theorem inv_cancel (s : LedgerState) (id : Nat) (cid cname : String)
    (hInv : Inv s) :
    Inv (resultingState s (createCancellationAndUpdateBalance s id cid cname)) := by
  rcases horig : getTransactionById s id with _ | original
  · have hs : resultingState s (createCancellationAndUpdateBalance s id cid cname) = s := by
      simp [createCancellationAndUpdateBalance, horig, resultingState]
    rw [hs]
    exact hInv
  by_cases hsrc : original.source = .cancellation
  · have hs : resultingState s (createCancellationAndUpdateBalance s id cid cname) = s := by
      simp [createCancellationAndUpdateBalance, horig, hsrc, resultingState]
    rw [hs]
    exact hInv
  by_cases hcanc : original.cancelledAt.isSome = true
  · have hs : resultingState s (createCancellationAndUpdateBalance s id cid cname) = s := by
      simp [createCancellationAndUpdateBalance, horig, hsrc, hcanc, resultingState]
    rw [hs]
    exact hInv
  rcases hacct : getAccountBySlug s original.accountSlug with _ | account
  · have hs : resultingState s (createCancellationAndUpdateBalance s id cid cname) = s := by
      simp [createCancellationAndUpdateBalance, horig, hsrc, hcanc, hacct, resultingState]
    rw [hs]
    exact hInv
  simp only [createCancellationAndUpdateBalance, horig, if_neg hsrc, hcanc,
    Bool.false_eq_true, if_false, hacct, resultingState]
  refine ⟨?_, ?_, ?_, ?_⟩
  · intro a' hmem' hlook'
    refine accountOk_one_leg s.accounts
      (updateTransactionDoc s.transactions id
        (fun t => { t with cancelledAt := some s.now
                           cancelledByTxnId := some s.nextId }))
      original.accountSlug account _ s.nextId _ hacct ?_ ?_ ?_ ?_ a'.slug a' hlook'
    · intro slug a hsl
      have h1 := inv_accountOk hInv hsl
      have h2 : a.slug = slug := findAccount_some_slug hsl
      rw [← h2, transactionsFor_update s.transactions id
          (fun t => { t with cancelledAt := some s.now
                             cancelledByTxnId := some s.nextId }) a.slug
          (fun t => rfl),
        replayConsistent_update (transactionsFor s.transactions a.slug) id
          (fun t => { t with cancelledAt := some s.now
                             cancelledByTxnId := some s.nextId }) 0
          (fun t => rfl) (fun t => rfl),
        sumAmounts_update (transactionsFor s.transactions a.slug) id
          (fun t => { t with cancelledAt := some s.now
                             cancelledByTxnId := some s.nextId })
          (fun t => rfl)]
      exact h1
    · rfl
    · rfl
    · rfl
  · intro p hp
    show p.1 < s.nextId + 1
    rcases List.mem_append.mp hp with hp | hp
    · obtain ⟨q, hq, hk, -⟩ := updateTransactionDoc_mem hp
      have := hInv.2.1 q hq
      omega
    · rcases List.mem_singleton.mp hp with rfl
      show s.nextId < s.nextId + 1
      omega
  · intro p hp lid hlid
    show lid < s.nextId + 1
    rcases List.mem_append.mp hp with hp | hp
    · obtain ⟨q, hq, -, hv⟩ := updateTransactionDoc_mem hp
      have hlink : p.2.linkedTransactionId = q.2.linkedTransactionId := by
        rcases hv with hv | hv <;> rw [hv]
      rw [hlink] at hlid
      have := hInv.2.2.1 q hq lid hlid
      omega
    · rcases List.mem_singleton.mp hp with rfl
      simp only [Option.toList] at hlid
      simp at hlid
  · intro p hp q hq hsrc' hlink
    rcases List.mem_append.mp hp with hp | hp
    · obtain ⟨P, hP, hPk, hPv⟩ := updateTransactionDoc_mem hp
      have hPsrc : p.2.source = P.2.source := by
        rcases hPv with hv | hv <;> rw [hv]
      have hPlink : p.2.linkedTransactionId = P.2.linkedTransactionId := by
        rcases hPv with hv | hv <;> rw [hv]
      have hPslug : p.2.accountSlug = P.2.accountSlug := by
        rcases hPv with hv | hv <;> rw [hv]
      rcases List.mem_append.mp hq with hq | hq
      · obtain ⟨Q, hQ, hQk, hQv⟩ := updateTransactionDoc_mem hq
        have hQslug : q.2.accountSlug = Q.2.accountSlug := by
          rcases hQv with hv | hv <;> rw [hv]
        rw [hPslug, hQslug]
        exact hInv.2.2.2 P hP Q hQ (by rw [← hPsrc] ; exact hsrc')
          (by rw [← hPlink, hlink, hQk])
      · rcases List.mem_singleton.mp hq with rfl
        exfalso
        have hbound := hInv.2.2.1 P hP s.nextId
          (by rw [← hPlink, hlink] ; simp)
        omega
    · rcases List.mem_singleton.mp hp with rfl
      exfalso
      simp at hsrc'

theorem inv_cancelTransfer (s : LedgerState) (legId : Nat) (cid cname : String)
    (hInv : Inv s) :
    Inv (resultingState s (createTransferCancellation s legId cid cname)) := by
  rcases horig : getTransactionById s legId with _ | original
  · have hs : resultingState s (createTransferCancellation s legId cid cname) = s := by
      simp [createTransferCancellation, horig, resultingState]
    rw [hs]
    exact hInv
  by_cases hsrcQ : original.source = .transfer
  case neg =>
    have hs : resultingState s (createTransferCancellation s legId cid cname) = s := by
      simp [createTransferCancellation, horig, hsrcQ, resultingState]
    rw [hs]
    exact hInv
  case pos =>
  have hns : ¬original.source ≠ .transfer := fun hc => hc hsrcQ
  rcases hlink : original.linkedTransactionId with _ | linkedId
  · have hs : resultingState s (createTransferCancellation s legId cid cname) = s := by
      simp [createTransferCancellation, horig, if_neg hns, hlink, resultingState]
    rw [hs]
    exact hInv
  rcases hlinked : getTransactionById s linkedId with _ | linked
  · have hs : resultingState s (createTransferCancellation s legId cid cname) = s := by
      simp [createTransferCancellation, horig, if_neg hns, hlink, hlinked, resultingState]
    rw [hs]
    exact hInv
  by_cases hcanc : (original.cancelledAt.isSome = true ∨ linked.cancelledAt.isSome = true)
  case pos =>
    have hs : resultingState s (createTransferCancellation s legId cid cname) = s := by
      simp only [createTransferCancellation, horig, if_neg hns, hlink, hlinked,
        if_pos hcanc, resultingState]
    rw [hs]
    exact hInv
  case neg =>
  rcases hacct1 : getAccountBySlug s original.accountSlug with _ | fromAccount
  · have hs : resultingState s (createTransferCancellation s legId cid cname) = s := by
      simp only [createTransferCancellation, horig, if_neg hns, hlink, hlinked,
        if_neg hcanc, hacct1, resultingState]
    rw [hs]
    exact hInv
  rcases hacct2 : getAccountBySlug s linked.accountSlug with _ | toAccount
  · have hs : resultingState s (createTransferCancellation s legId cid cname) = s := by
      simp only [createTransferCancellation, horig, if_neg hns, hlink, hlinked,
        if_neg hcanc, hacct1, hacct2, resultingState]
    rw [hs]
    exact hInv
  obtain ⟨P0, hP0, hP0k, hP0v⟩ := findTransaction_some_key horig
  obtain ⟨Q0, hQ0, hQ0k, hQ0v⟩ := findTransaction_some_key hlinked
  have hslug : linked.accountSlug ≠ original.accountSlug := by
    have hd := hInv.2.2.2 P0 hP0 Q0 hQ0 (by rw [hP0v] ; exact hsrcQ)
      (by rw [hP0v, hlink, hQ0k])
    rw [hP0v, hQ0v] at hd
    exact hd
  simp only [createTransferCancellation, horig, if_neg hns, hlink, hlinked,
    if_neg hcanc, hacct1, hacct2, resultingState]
  refine ⟨?_, ?_, ?_, ?_⟩
  · intro a' hmem' hlook'
    refine accountOk_two_leg s.accounts
      (updateTransactionDoc (updateTransactionDoc s.transactions legId
        (fun t => { t with cancelledAt := some s.now
                           cancelledByTxnId := some s.nextId }))
        linkedId
        (fun t => { t with cancelledAt := some s.now
                           cancelledByTxnId := some (s.nextId + 1) }))
      original.accountSlug linked.accountSlug fromAccount toAccount
      _ _ s.nextId (s.nextId + 1) _ _
      (Ne.symm hslug) hacct1 hacct2 ?_ ?_ ?_ ?_ ?_ ?_ ?_ a'.slug a' hlook'
    · intro slug a hsl
      have h1 := inv_accountOk hInv hsl
      have h2 : a.slug = slug := findAccount_some_slug hsl
      rw [← h2]
      rw [transactionsFor_update (updateTransactionDoc s.transactions legId
            (fun t => { t with cancelledAt := some s.now
                               cancelledByTxnId := some s.nextId }))
          linkedId
          (fun t => { t with cancelledAt := some s.now
                             cancelledByTxnId := some (s.nextId + 1) })
          a.slug (fun t => rfl),
        transactionsFor_update s.transactions legId
          (fun t => { t with cancelledAt := some s.now
                             cancelledByTxnId := some s.nextId })
          a.slug (fun t => rfl),
        replayConsistent_update
          (updateTransactionDoc (transactionsFor s.transactions a.slug) legId
            (fun t => { t with cancelledAt := some s.now
                               cancelledByTxnId := some s.nextId }))
          linkedId
          (fun t => { t with cancelledAt := some s.now
                             cancelledByTxnId := some (s.nextId + 1) })
          0 (fun t => rfl) (fun t => rfl),
        replayConsistent_update (transactionsFor s.transactions a.slug) legId
          (fun t => { t with cancelledAt := some s.now
                             cancelledByTxnId := some s.nextId })
          0 (fun t => rfl) (fun t => rfl),
        sumAmounts_update
          (updateTransactionDoc (transactionsFor s.transactions a.slug) legId
            (fun t => { t with cancelledAt := some s.now
                               cancelledByTxnId := some s.nextId }))
          linkedId
          (fun t => { t with cancelledAt := some s.now
                             cancelledByTxnId := some (s.nextId + 1) })
          (fun t => rfl),
        sumAmounts_update (transactionsFor s.transactions a.slug) legId
          (fun t => { t with cancelledAt := some s.now
                             cancelledByTxnId := some s.nextId })
          (fun t => rfl)]
      exact h1
    · rfl
    · rfl
    · ring
    · ring
    · rfl
    · rfl
  · intro p hp
    show p.1 < s.nextId + 2
    rcases List.mem_append.mp hp with hp | hp
    · obtain ⟨q1, hq1m, hk1, -⟩ := updateTransactionDoc_mem hp
      obtain ⟨q2, hq2m, hk2, -⟩ := updateTransactionDoc_mem hq1m
      have := hInv.2.1 q2 hq2m
      omega
    · simp only [List.mem_cons, List.mem_singleton, List.not_mem_nil, or_false] at hp
      rcases hp with rfl | rfl
      · show s.nextId < s.nextId + 2
        omega
      · show s.nextId + 1 < s.nextId + 2
        omega
  · intro p hp lid hlid
    show lid < s.nextId + 2
    rcases List.mem_append.mp hp with hp | hp
    · obtain ⟨q1, hq1m, -, hv1⟩ := updateTransactionDoc_mem hp
      obtain ⟨q2, hq2m, -, hv2⟩ := updateTransactionDoc_mem hq1m
      have hl1 : p.2.linkedTransactionId = q1.2.linkedTransactionId := by
        rcases hv1 with h | h <;> rw [h]
      have hl2 : q1.2.linkedTransactionId = q2.2.linkedTransactionId := by
        rcases hv2 with h | h <;> rw [h]
      rw [hl1, hl2] at hlid
      have := hInv.2.2.1 q2 hq2m lid hlid
      omega
    · simp only [List.mem_cons, List.mem_singleton, List.not_mem_nil, or_false] at hp
      rcases hp with rfl | rfl
      · simp only [Option.toList, List.mem_singleton] at hlid
        omega
      · simp only [Option.toList, List.mem_singleton] at hlid
        omega
  · intro p hp q hq hsrc4 hlink4
    rcases List.mem_append.mp hp with hp | hp
    · obtain ⟨P1, hP1, hPk1, hPv1⟩ := updateTransactionDoc_mem hp
      obtain ⟨P2, hP2, hPk2, hPv2⟩ := updateTransactionDoc_mem hP1
      have hsrcP : p.2.source = P2.2.source := by
        have h1 : p.2.source = P1.2.source := by
          rcases hPv1 with h | h <;> rw [h]
        have h2 : P1.2.source = P2.2.source := by
          rcases hPv2 with h | h <;> rw [h]
        exact h1.trans h2
      have hlinkP : p.2.linkedTransactionId = P2.2.linkedTransactionId := by
        have h1 : p.2.linkedTransactionId = P1.2.linkedTransactionId := by
          rcases hPv1 with h | h <;> rw [h]
        have h2 : P1.2.linkedTransactionId = P2.2.linkedTransactionId := by
          rcases hPv2 with h | h <;> rw [h]
        exact h1.trans h2
      have hslugP : p.2.accountSlug = P2.2.accountSlug := by
        have h1 : p.2.accountSlug = P1.2.accountSlug := by
          rcases hPv1 with h | h <;> rw [h]
        have h2 : P1.2.accountSlug = P2.2.accountSlug := by
          rcases hPv2 with h | h <;> rw [h]
        exact h1.trans h2
      rcases List.mem_append.mp hq with hq | hq
      · obtain ⟨R1, hR1, hRk1, hRv1⟩ := updateTransactionDoc_mem hq
        obtain ⟨R2, hR2, hRk2, hRv2⟩ := updateTransactionDoc_mem hR1
        have hslugR : q.2.accountSlug = R2.2.accountSlug := by
          have h1 : q.2.accountSlug = R1.2.accountSlug := by
            rcases hRv1 with h | h <;> rw [h]
          have h2 : R1.2.accountSlug = R2.2.accountSlug := by
            rcases hRv2 with h | h <;> rw [h]
          exact h1.trans h2
        rw [hslugP, hslugR]
        exact hInv.2.2.2 P2 hP2 R2 hR2 (by rw [← hsrcP] ; exact hsrc4)
          (by rw [← hlinkP, hlink4, hRk1, hRk2])
      · exfalso
        simp only [List.mem_cons, List.mem_singleton, List.not_mem_nil, or_false] at hq
        have hbound := hInv.2.2.1 P2 hP2 q.1 (by rw [← hlinkP, hlink4] ; simp)
        rcases hq with rfl | rfl
        · simp at hbound
        · simp at hbound
    · exfalso
      simp only [List.mem_cons, List.mem_singleton, List.not_mem_nil, or_false] at hp
      rcases hp with rfl | rfl
      · simp at hsrc4
      · simp at hsrc4

/-- The sync adjustment at the Ledger Engine level, as the specification's
session machine describes the sync terminal (spec 4.2:
recordTransaction(source=sync) of the delta): read the account, compute
delta as the entered balance minus the stored balance, do nothing when delta
is zero, otherwise commit the delta through the atomic
createTransactionAndUpdateBalance. The staged sync flow terminal
(handlers/sync.ts) does NOT take this path: it commits through the legacy
createTransaction plus updateAccountBalance pair, which stores no
balanceAfter — that path is embedded faithfully as handleSyncAmountInput
below, and the counterexample recorded for C1 shows it breaking the replay
clause. -/
def applySyncAdjustment (s : LedgerState) (slug : String) (newBalanceMinor : Int)
    (createdById createdByName : String) : LedgerState :=
  match getAccountBySlug s slug with
  | none => s
  | some account =>
    let delta := newBalanceMinor - account.balance
    if delta = 0 then s
    else resultingState s (createTransactionAndUpdateBalance s
      { accountSlug := slug, amount := delta, currency := account.currency
        description := none, source := .sync
        createdById := createdById, createdByName := createdByName })

/-- The completed core operations at the Ledger Engine's atomic API (spec
section 4.1): manual add, sync adjustment, transfer, cancellation of a
single transaction and cancellation of a transfer pair. The staged add and
sync flow terminals (handlers/add.ts, handlers/sync.ts) do not commit
through this API but through the legacy createTransaction plus
updateAccountBalance pair, which stores no balanceAfter; that divergence is
what the C1 correction records, with the staged path embedded separately as
handleDescriptionInput and handleSyncAmountInput. -/
inductive CoreOp
  | recordTxn (data : CreateTransactionData)
  | syncTo (slug : String) (newBalanceMinor : Int) (createdById createdByName : String)
  | transferOp (data : CreateTransferData)
  | cancelOp (originalTxnId : Nat) (createdById createdByName : String)
  | cancelTransferOp (originalTxnId : Nat) (createdById createdByName : String)

/-- Apply one engine-level core operation; a thrown engine error leaves the
ledger unchanged. -/
def applyCoreOp (s : LedgerState) : CoreOp → LedgerState
  | .recordTxn data => resultingState s (createTransactionAndUpdateBalance s data)
  | .syncTo slug nb cid cname => applySyncAdjustment s slug nb cid cname
  | .transferOp data => resultingState s (createTransferAndUpdateBalances s data)
  | .cancelOp id cid cname =>
    resultingState s (createCancellationAndUpdateBalance s id cid cname)
  | .cancelTransferOp id cid cname =>
    resultingState s (createTransferCancellation s id cid cname)

/-- A core operation as issued by the flows: the transfer flow's
destination-selection step refuses the source account
(handleTransferToCallback), so flow transfers have distinct slugs. -/
def CoreOp.wellFormed : CoreOp → Prop
  | .transferOp data => data.fromAccountSlug ≠ data.toAccountSlug
  | _ => True

theorem inv_sync (s : LedgerState) (slug : String) (nb : Int)
    (cid cname : String) (hInv : Inv s) :
    Inv (applySyncAdjustment s slug nb cid cname) := by
  unfold applySyncAdjustment
  rcases h : getAccountBySlug s slug with _ | account
  · exact hInv
  · simp only [h]
    split
    · exact hInv
    · exact inv_record s _ hInv

theorem inv_applyCoreOp (s : LedgerState) (op : CoreOp) (hInv : Inv s)
    (hwf : op.wellFormed) : Inv (applyCoreOp s op) := by
  cases op with
  | recordTxn data => exact inv_record s data hInv
  | syncTo slug nb cid cname => exact inv_sync s slug nb cid cname hInv
  | transferOp data => exact inv_transfer s data hInv hwf
  | cancelOp id cid cname => exact inv_cancel s id cid cname hInv
  | cancelTransferOp id cid cname => exact inv_cancelTransfer s id cid cname hInv

/-- C1 (amended: the core operations are those committed through the Ledger
Engine's atomic API, with the distinct-slug transfers the flow issues; as
frozen the claim also covers the staged add and sync flow terminals, which
commit through the legacy createTransaction storing no balanceAfter, so the
replay clause fails there — the counterexample exhibits a sync adjustment
through the staged handler breaking it): starting from a well-formed ledger
whose accounts satisfy the replay invariant, any sequence of engine-level
core operations (manual add, sync adjustment, flow transfers — which always
have distinct source and destination — and cancellations) preserves
well-formedness, and afterwards every resolvable account's stored balance
equals the sum of its transaction amounts while every stored balanceAfter
equals the running sum in creation order. -/
theorem core_ops_preserve_replay_invariant (s : LedgerState) (ops : List CoreOp)
    (hInv : Inv s) (hwf : ∀ op ∈ ops, op.wellFormed) :
    Inv (ops.foldl applyCoreOp s) ∧
    (∀ slug a, getAccountBySlug (ops.foldl applyCoreOp s) slug = some a →
      replayConsistent 0
        (transactionsFor (ops.foldl applyCoreOp s).transactions slug) = true ∧
      sumAmounts (transactionsFor (ops.foldl applyCoreOp s).transactions slug) =
        a.balance) := by
  have hmain : Inv (ops.foldl applyCoreOp s) := by
    induction ops generalizing s with
    | nil => exact hInv
    | cons op rest ih =>
      rw [List.foldl_cons]
      exact ih (applyCoreOp s op)
        (inv_applyCoreOp s op hInv (hwf op (by simp)))
        (fun o ho => hwf o (by simp [ho]))
  refine ⟨hmain, ?_⟩
  intro slug a hsl
  have h1 := inv_accountOk hmain hsl
  have h2 : a.slug = slug := findAccount_some_slug hsl
  rw [← h2]
  exact h1

instance (s : LedgerState) (a : Account) : Decidable (AccountOk s a) :=
  inferInstanceAs (Decidable
    (replayConsistent 0 (transactionsFor s.transactions a.slug) = true ∧
     sumAmounts (transactionsFor s.transactions a.slug) = a.balance))

instance (s : LedgerState) : Decidable (Inv s) :=
  inferInstanceAs (Decidable
    ((∀ a ∈ s.accounts, getAccountBySlug s a.slug = some a → AccountOk s a) ∧
     (∀ p ∈ s.transactions, p.1 < s.nextId) ∧
     (∀ p ∈ s.transactions, ∀ lid ∈ p.2.linkedTransactionId.toList, lid < s.nextId) ∧
     (∀ p ∈ s.transactions, ∀ q ∈ s.transactions,
       p.2.source = .transfer → p.2.linkedTransactionId = some q.1 →
       q.2.accountSlug ≠ p.2.accountSlug)))

instance : (op : CoreOp) → Decidable op.wellFormed
  | .recordTxn _ => .isTrue trivial
  | .syncTo _ _ _ _ => .isTrue trivial
  | .transferOp data =>
    if h : data.fromAccountSlug = data.toAccountSlug then
      .isFalse (fun hc => hc h)
    else .isTrue h
  | .cancelOp _ _ _ => .isTrue trivial
  | .cancelTransferOp _ _ _ => .isTrue trivial

/-- Demo ledger whose stored balances match the (empty) transaction lists. -/
def zeroLedger : LedgerState :=
  { accounts := [cashAccount, { cardAccount with balance := 0 }]
    transactions := [], nextId := 0, now := 0 }

/-- An operation sequence exercising all four core operation kinds. -/
def demoOps : List CoreOp :=
  [CoreOp.recordTxn groceriesData,
   CoreOp.syncTo ("cash") 20000 ("actorX") ("Actor X"),
   CoreOp.transferOp rentTransferData,
   CoreOp.cancelOp 0 ("actorX") ("Actor X")]

/-- Witness for C1: after an add, a sync adjustment, a transfer and a
cancellation on the zero ledger, cash still satisfies the replay invariant
with balance 4950. -/
theorem core_ops_preserve_replay_invariant_witness :
    replayConsistent 0
      (transactionsFor (demoOps.foldl applyCoreOp zeroLedger).transactions
        ("cash")) = true ∧
    sumAmounts (transactionsFor (demoOps.foldl applyCoreOp zeroLedger).transactions
      ("cash")) = 4950 := by
  obtain ⟨h1, h2⟩ :=
    (core_ops_preserve_replay_invariant zeroLedger demoOps (by decide)
      (by decide)).2 ("cash") { cashAccount with balance := 4950 } (by decide)
  exact ⟨h1, h2⟩

/-- Session step (types/index.ts: SessionStep; source strings amount,
description, sync_amount, transfer_to, transfer_amount, transfer_received,
transfer_description). -/
inductive SessionStep
  | amount
  | description
  | syncAmount
  | transferTo
  | transferAmount
  | transferReceived
  | transferDescription
deriving DecidableEq, Repr

/-- Session document (types/index.ts: Session). Fields that a given flow
does not set are empty options, exactly like the absent Firestore fields. -/
structure Session where
  step : SessionStep
  accountSlug : Option String
  amount : Option Int
  createdAt : Nat
  createdById : String
  messageIds : List Nat
  messageThreadId : Option Nat
  fromAccountSlug : Option String
  toAccountSlug : Option String
  receivedAmount : Option Int
  exchangeRate : Option ℚ
deriving DecidableEq, Repr

/-- The sessions collection, keyed by the composite session key. -/
abbrev SessionStore := List (String × Session)

/-- getSessionKey (services/firestore.ts): chatId colon userId. -/
def getSessionKey (chatId userId : String) : String :=
  chatId ++ (":") ++ userId

/-- getSession (services/firestore.ts): document lookup by key. -/
def getSession (store : SessionStore) (key : String) : Option Session :=
  (store.find? (fun p => p.1 == key)).map Prod.snd

/-- setSession (services/firestore.ts): document set — replace the document
at the key or create it. -/
def setSession : SessionStore → String → Session → SessionStore
  | [], key, session => [(key, session)]
  | (k, s₀) :: rest, key, session =>
    if k == key then (k, session) :: rest
    else (k, s₀) :: setSession rest key session

/-- deleteSession (services/firestore.ts): document delete by key. -/
def deleteSession (store : SessionStore) (key : String) : SessionStore :=
  store.filter (fun p => !(p.1 == key))

/-- JS text.replace(comma, dot): replaces only the first occurrence. -/
def replaceFirstCommaAux : List Char → List Char
  | [] => []
  | c :: cs => if c = ',' then '.' :: cs else c :: replaceFirstCommaAux cs

/-- The normalization step of the amount handlers. -/
def replaceFirstComma (s : String) : String :=
  ⟨replaceFirstCommaAux s.data⟩

def digitVal (c : Char) : Nat :=
  c.toNat - ('0').toNat

def digitsToNat : List Char → Nat → Nat
  | [], acc => acc
  | c :: cs, acc => digitsToNat cs (acc * 10 + digitVal c)

/-- An exact decimal number: the value is mantissa divided by ten to the
scale. Numbers the handlers work with are held in this form rather than as
a rational so that every comparison and the minor-unit conversion are plain
integer computations; decValue gives the rational meaning, and the bridge
lemmas below show each integer computation agrees with the rational one. -/
structure DecNum where
  mantissa : Int
  scale : Nat
deriving DecidableEq, Repr

/-- The rational value an exact decimal denotes. -/
def decValue (x : DecNum) : ℚ :=
  (x.mantissa : ℚ) / (10 : ℚ) ^ x.scale

/-- Modelled JS parseFloat, restricted to complete decimal literals: an
optional sign, integer digits, an optional dot with fraction digits, and
nothing else. Inputs outside this grammar (exponents, trailing text,
whitespace) are mapped to none, the handlers' NaN branch. The value is
exact: for every literal the handlers accept (at most two decimals,
magnitude at most one million) IEEE-754 parseFloat followed by
Math.round(x*100) yields the same minor-unit integer as this exact
computation, since all quantities are far below the 2^53 precision bound. -/
def parseFloatDec (s : String) : Option DecNum :=
  match s.data with
  | [] => none
  | cs =>
    let signSplit : Bool × List Char :=
      match cs with
      | '-' :: r => (true, r)
      | '+' :: r => (false, r)
      | r => (false, r)
    let neg := signSplit.1
    let rest := signSplit.2
    let intDigits := rest.takeWhile Char.isDigit
    let afterInt := rest.dropWhile Char.isDigit
    match afterInt with
    | [] =>
      if intDigits.isEmpty then none
      else
        let m : Int := (digitsToNat intDigits 0 : Int)
        some ⟨if neg then -m else m, 0⟩
    | '.' :: fracDigits =>
      if fracDigits.all Char.isDigit then
        if intDigits.isEmpty && fracDigits.isEmpty then none
        else
          let d := fracDigits.length
          let m : Int :=
            ((digitsToNat intDigits 0 * 10 ^ d + digitsToNat fracDigits 0 : Nat) : Int)
          some ⟨if neg then -m else m, d⟩
      else none
    | _ => none

/-- The text after the first dot, or none when there is no dot. -/
def afterFirstDot : List Char → Option (List Char)
  | [] => none
  | c :: cs => if c = '.' then some cs else afterFirstDot cs

/-- JS normalized.split(dot)[1]: length of the text between the first dot
and the following dot or the end (zero when there is no dot, matching the
falsy branch of the decimal-places check). -/
def decimalPartLength (s : String) : Nat :=
  match afterFirstDot s.data with
  | none => 0
  | some cs => (cs.takeWhile (fun c => c != '.')).length

/-- JS Math.round: round half toward positive infinity. -/
def jsRound (q : ℚ) : Int :=
  ⌊q + 1 / 2⌋

/-- toMinorUnits (utils/currency.ts): Math.round(amount * 100), carried out
exactly on the decimal representation; toMinorUnits_eq_jsRound shows this
integer form equals the rational rounding. -/
def toMinorUnits (x : DecNum) : Int :=
  (200 * x.mantissa + 10 ^ x.scale) / (2 * 10 ^ x.scale)

/-- The configured input ceiling (MAX_AMOUNT = 1000000 major units). -/
def MAX_AMOUNT : Int := 1000000

/-- The reject categories of the numeric-input steps, one per distinct
error message sent by the handlers. -/
inductive AmountReject
  | invalidNumber
  | negativeNotAllowed
  | maxDecimals
  | maxAmount
deriving DecidableEq, Repr

/-- Validation sequence of handleAmountInput (handlers/add.ts lines 515 to
542): parse after comma normalization, reject NaN or zero, reject more than
two decimals, reject magnitude above the ceiling, convert to minor units. -/
def validateAddAmount (text : String) : Except AmountReject Int :=
  let normalizedText := replaceFirstComma text
  match parseFloatDec normalizedText with
  | none => .error .invalidNumber
  | some amountMajor =>
    if amountMajor.mantissa = 0 then .error .invalidNumber
    else if 2 < decimalPartLength normalizedText then .error .maxDecimals
    else if MAX_AMOUNT * 10 ^ amountMajor.scale < (amountMajor.mantissa.natAbs : Int) then
      .error .maxAmount
    else .ok (toMinorUnits amountMajor)

/-- Validation sequence of handleSyncAmountInput (handlers/sync.ts lines 336
to 363 with the conversion of line 375): parse, reject NaN, reject negative,
reject more than two decimals, reject above the ceiling; zero is allowed. -/
def validateSyncAmount (text : String) : Except AmountReject Int :=
  let normalizedText := replaceFirstComma text
  match parseFloatDec normalizedText with
  | none => .error .invalidNumber
  | some newBalanceMajor =>
    if newBalanceMajor.mantissa < 0 then .error .negativeNotAllowed
    else if 2 < decimalPartLength normalizedText then .error .maxDecimals
    else if MAX_AMOUNT * 10 ^ newBalanceMajor.scale < newBalanceMajor.mantissa then
      .error .maxAmount
    else .ok (toMinorUnits newBalanceMajor)

/-- Validation sequence of handleTransferAmountInput (handlers/sync.ts,
transfer document, lines 699 to 731): parse, reject NaN or non-positive,
reject more than two decimals, reject above the ceiling. -/
def validateTransferAmount (text : String) : Except AmountReject Int :=
  let normalizedText := replaceFirstComma text
  match parseFloatDec normalizedText with
  | none => .error .invalidNumber
  | some amountMajor =>
    if amountMajor.mantissa ≤ 0 then .error .invalidNumber
    else if 2 < decimalPartLength normalizedText then .error .maxDecimals
    else if MAX_AMOUNT * 10 ^ amountMajor.scale < amountMajor.mantissa then
      .error .maxAmount
    else .ok (toMinorUnits amountMajor)

/-- The zero test of validateAddAmount on the mantissa agrees with the zero
test on the denoted value. -/
theorem decValue_eq_zero_iff (x : DecNum) : decValue x = 0 ↔ x.mantissa = 0 := by
  have hp : (0:ℚ) < (10:ℚ) ^ x.scale := by positivity
  rw [decValue, div_eq_zero_iff]
  simp [hp.ne']

/-- The negativity test of validateSyncAmount on the mantissa agrees with
the one on the denoted value. -/
theorem decValue_neg_iff (x : DecNum) : decValue x < 0 ↔ x.mantissa < 0 := by
  have hp : (0:ℚ) < (10:ℚ) ^ x.scale := by positivity
  rw [decValue, div_lt_iff₀ hp]
  simp

/-- The non-positivity test of validateTransferAmount on the mantissa agrees
with the one on the denoted value. -/
theorem decValue_nonpos_iff (x : DecNum) : decValue x ≤ 0 ↔ x.mantissa ≤ 0 := by
  have hp : (0:ℚ) < (10:ℚ) ^ x.scale := by positivity
  rw [decValue, div_le_iff₀ hp]
  simp

/-- The integer ceiling test of validateAddAmount is the rational comparison
MAX_AMOUNT against the absolute denoted value. -/
theorem maxAmount_abs_bridge (x : DecNum) :
    ((MAX_AMOUNT : ℚ) < |decValue x| ↔
      MAX_AMOUNT * 10 ^ x.scale < (x.mantissa.natAbs : Int)) := by
  have hp : (0:ℚ) < (10:ℚ) ^ x.scale := by positivity
  rw [decValue, abs_div, abs_of_pos hp, lt_div_iff₀ hp]
  norm_cast

/-- The integer ceiling test of validateSyncAmount and
validateTransferAmount is the rational comparison MAX_AMOUNT against the
denoted value. -/
theorem maxAmount_lt_bridge (x : DecNum) :
    ((MAX_AMOUNT : ℚ) < decValue x ↔
      MAX_AMOUNT * 10 ^ x.scale < x.mantissa) := by
  have hp : (0:ℚ) < (10:ℚ) ^ x.scale := by positivity
  rw [decValue, lt_div_iff₀ hp]
  norm_cast

/-- The integer minor-unit conversion is Math.round of one hundred times the
denoted value. -/
theorem toMinorUnits_eq_jsRound (x : DecNum) :
    toMinorUnits x = jsRound (decValue x * 100) := by
  have hp : (0:ℚ) < (10:ℚ) ^ x.scale := by positivity
  rw [toMinorUnits, jsRound, decValue]
  rw [show ((x.mantissa:ℚ) / (10:ℚ) ^ x.scale * 100 + 1/2) =
      ((200 * x.mantissa + 10 ^ x.scale : Int) : ℚ) / ((2 * 10 ^ x.scale : ℕ) : ℚ) by
    push_cast
    field_simp
    ring]
  rw [Rat.floor_intCast_div_natCast]
  push_cast
  rfl

/-- The bot-facing state one event handler works on: the ledger, the
sessions collection, and the transport's message-id allocator. -/
structure BotState where
  ledger : LedgerState
  sessions : SessionStore
  nextMessageId : Nat
deriving DecidableEq, Repr

/-- Sending a chat message: allocates the next message id. -/
def sendMessage (st : BotState) : BotState × Nat :=
  ({ st with nextMessageId := st.nextMessageId + 1 }, st.nextMessageId)

/-- JS description formatting (handlers/add.ts): capitalize the first
character and truncate to 100 characters. -/
def formatDescription (s : String) : String :=
  match s.data with
  | [] => ("")
  | c :: cs => ⟨(c.toUpper :: cs).take 100⟩

/-- handleAmountInput (handlers/add.ts lines 500 to 566): validate the
text; on rejection send one re-prompt and return, leaving the session as it
was; on acceptance send the description prompt and advance the session at
the same key to the description step carrying the minor-unit amount. -/
def handleAmountInput (st : BotState) (sessionKey : String)
    (accountSlug : Option String) (createdById : String) (text : String)
    (userMessageId : Option Nat) (messageIds : List Nat) : BotState × Bool :=
  match validateAddAmount text with
  | .error _ => ((sendMessage st).1, true)
  | .ok amountMinor =>
    let withUser := messageIds ++ userMessageId.toList
    let r := sendMessage st
    let updatedMessageIds := withUser ++ [r.2]
    let session : Session :=
      { step := .description
        accountSlug := accountSlug
        amount := some amountMinor
        createdAt := r.1.ledger.now
        createdById := createdById
        messageIds := updatedMessageIds
        messageThreadId := none
        fromAccountSlug := none
        toAccountSlug := none
        receivedAmount := none
        exchangeRate := none }
    ({ r.1 with sessions := setSession r.1.sessions sessionKey session }, true)

/-- handleDescriptionInput (handlers/add.ts lines 571 to 642): resolve the
account (failing: report and discard the session); otherwise write the
manual transaction through the legacy createTransaction, increment the
balance with updateAccountBalance, delete the session and send the
confirmation. The updateAccountBalance error fallback is unreachable: the
account was just resolved within the same unit of work. -/
def handleDescriptionInput (st : BotState) (sessionKey : String)
    (accountSlug : Option String) (amount : Int) (createdById : String)
    (description : String) (userMessageId : Option Nat) (messageIds : List Nat)
    (createdByName : String) : BotState × Bool :=
  match accountSlug.bind (fun slug => getAccountBySlug st.ledger slug) with
  | none =>
    let r := sendMessage st
    ({ r.1 with sessions := deleteSession r.1.sessions sessionKey }, true)
  | some account =>
    let formattedDescription := formatDescription description
    let created := createTransaction st.ledger
      { accountSlug := accountSlug.getD ("")
        amount := amount
        currency := account.currency
        description := some formattedDescription
        source := .manual
        createdById := createdById
        createdByName := createdByName }
    let ledger₂ :=
      match updateAccountBalance created.1 (accountSlug.getD ("")) amount with
      | .ok l => l
      | .error _ => created.1
    let st₂ : BotState := { st with ledger := ledger₂ }
    let st₃ : BotState := { st₂ with sessions := deleteSession st₂.sessions sessionKey }
    ((sendMessage st₃).1, true)

/-- handleSyncAmountInput (handlers/sync.ts lines 321 to 433): validate the
entered balance (rejects re-prompt and leave the session untouched), resolve
the account (failing: discard the session), compute delta; delta zero is a
no-op that deletes the session; otherwise write the sync transaction via the
legacy createTransaction, increment the balance, delete the session and
confirm. -/
def handleSyncAmountInput (st : BotState) (sessionKey : String)
    (accountSlug : Option String) (createdById : String) (text : String)
    (userMessageId : Option Nat) (messageIds : List Nat)
    (createdByName : String) : BotState × Bool :=
  match validateSyncAmount text with
  | .error _ => ((sendMessage st).1, true)
  | .ok newBalanceMinor =>
    match accountSlug.bind (fun slug => getAccountBySlug st.ledger slug) with
    | none =>
      let r := sendMessage st
      ({ r.1 with sessions := deleteSession r.1.sessions sessionKey }, true)
    | some account =>
      let delta := newBalanceMinor - account.balance
      if delta = 0 then
        let st₁ : BotState := { st with sessions := deleteSession st.sessions sessionKey }
        ((sendMessage st₁).1, true)
      else
        let created := createTransaction st.ledger
          { accountSlug := accountSlug.getD ("")
            amount := delta
            currency := account.currency
            description := none
            source := .sync
            createdById := createdById
            createdByName := createdByName }
        let ledger₂ :=
          match updateAccountBalance created.1 (accountSlug.getD ("")) delta with
          | .ok l => l
          | .error _ => created.1
        let st₂ : BotState := { st with ledger := ledger₂ }
        let st₃ : BotState := { st₂ with sessions := deleteSession st₂.sessions sessionKey }
        ((sendMessage st₃).1, true)

/-- handleSessionMessage (handlers/add.ts lines 431 to 495): compute the
composite session key from the chat id and the acting user id, read that
session only, and dispatch on its step; without a session or a text the
event is not consumed. -/
def handleSessionMessage (st : BotState) (chatId telegramUserId : String)
    (text : Option String) (userMessageId : Option Nat)
    (createdByName : String) : BotState × Bool :=
  let sessionKey := getSessionKey chatId telegramUserId
  match getSession st.sessions sessionKey with
  | none => (st, false)
  | some session =>
    match text with
    | none => (st, false)
    | some t =>
      match session.step with
      | .amount =>
        handleAmountInput st sessionKey session.accountSlug telegramUserId t
          userMessageId session.messageIds
      | .description =>
        handleDescriptionInput st sessionKey session.accountSlug
          (session.amount.getD 0) telegramUserId t userMessageId
          session.messageIds createdByName
      | .syncAmount =>
        handleSyncAmountInput st sessionKey session.accountSlug telegramUserId
          t userMessageId session.messageIds createdByName
      | _ => (st, false)

/-- handleTransferToCallback (handlers/sync.ts, transfer document, lines 604
to 681): with a transfer_to session owned by the same key, a destination
equal to the stored source is answered with sameAccountError and nothing is
written; otherwise, when both accounts resolve, the session advances to the
transfer_amount step carrying both slugs. -/
def handleTransferToCallback (st : BotState) (chatId telegramUserId toSlug : String) :
    BotState :=
  let sessionKey := getSessionKey chatId telegramUserId
  match getSession st.sessions sessionKey with
  | none => st
  | some session =>
    if session.step ≠ .transferTo then st
    else
      match session.fromAccountSlug with
      | none => st
      | some fromSlug =>
        if fromSlug = toSlug then st
        else
          match getAccountBySlug st.ledger fromSlug,
                getAccountBySlug st.ledger toSlug with
          | some _, some _ =>
            let advanced : Session :=
              { step := .transferAmount
                accountSlug := none
                amount := none
                createdAt := st.ledger.now
                createdById := telegramUserId
                messageIds := session.messageIds
                messageThreadId := session.messageThreadId
                fromAccountSlug := some fromSlug
                toAccountSlug := some toSlug
                receivedAmount := none
                exchangeRate := none }
            { st with sessions := setSession st.sessions sessionKey advanced }
          | _, _ => st

/-! Session store lemmas. -/

theorem getSession_cons (k : String) (s₀ : Session) (rest : SessionStore)
    (key : String) :
    getSession ((k, s₀) :: rest) key =
      if k = key then some s₀ else getSession rest key := by
  by_cases h : k = key
  · have hb : (k == key) = true := by simp [h]
    simp [getSession, List.find?, hb, h]
  · have hb : (k == key) = false := by simp [h]
    simp [getSession, List.find?, hb, h]

theorem getSession_setSession :
    ∀ (store : SessionStore) (key : String) (v : Session) (key' : String),
      getSession (setSession store key v) key' =
        if key = key' then some v else getSession store key'
  | [], key, v, key' => by
    rw [show setSession [] key v = [(key, v)] from rfl, getSession_cons]
  | (k, s₀) :: rest, key, v, key' => by
    by_cases h : k = key
    · have hb : (k == key) = true := by simp [h]
      rw [show setSession ((k, s₀) :: rest) key v =
        (k, v) :: rest from by simp [setSession, hb]]
      rw [getSession_cons, getSession_cons]
      subst h
      by_cases h' : k = key' <;> simp [h']
    · have hb : (k == key) = false := by simp [h]
      rw [show setSession ((k, s₀) :: rest) key v =
        (k, s₀) :: setSession rest key v from by simp [setSession, hb]]
      rw [getSession_cons, getSession_cons,
        getSession_setSession rest key v key']
      by_cases h1 : k = key'
      · have h2 : ¬key = key' := fun hc => h (h1.trans hc.symm)
        simp [h1, h2]
      · simp [h1]

theorem getSession_deleteSession :
    ∀ (store : SessionStore) (key key' : String),
      getSession (deleteSession store key) key' =
        if key = key' then none else getSession store key'
  | [], key, key' => by
    by_cases h : key = key' <;> simp [deleteSession, getSession, List.find?, h]
  | (k, s₀) :: rest, key, key' => by
    by_cases h : k = key
    · subst h
      rw [show deleteSession ((k, s₀) :: rest) k = deleteSession rest k from
          by simp [deleteSession, List.filter_cons],
        getSession_deleteSession rest k key', getSession_cons]
      by_cases h' : k = key' <;> simp [h']
    · have hb : (k == key) = false := by simp [h]
      rw [show deleteSession ((k, s₀) :: rest) key =
          (k, s₀) :: deleteSession rest key from
          by simp [deleteSession, List.filter_cons, hb],
        getSession_cons, getSession_cons, getSession_deleteSession rest key key']
      by_cases h1 : k = key'
      · have h2 : ¬key = key' := fun hc => h (h1.trans hc.symm)
        simp [h1, h2]
      · simp [h1]

instance {ε α : Type} [DecidableEq ε] [DecidableEq α] : DecidableEq (Except ε α) :=
  fun x y =>
    match x, y with
    | .ok a, .ok b =>
      if h : a = b then .isTrue (by rw [h]) else
        .isFalse (by intro hc ; cases hc ; exact h rfl)
    | .error a, .error b =>
      if h : a = b then .isTrue (by rw [h]) else
        .isFalse (by intro hc ; cases hc ; exact h rfl)
    | .ok _, .error _ => .isFalse (by intro hc ; cases hc)
    | .error _, .ok _ => .isFalse (by intro hc ; cases hc)

/-- Demo bot state over the demo ledger with no sessions. -/
def demoBot : BotState :=
  { ledger := demoLedger, sessions := [], nextMessageId := 0 }

/-- C8: at the numeric-input steps, 12,50 and 12.50 both parse to the
minor-unit value 1250; 12.505 is rejected for excess decimals; text that
does not parse as a number is rejected; a magnitude above the 1,000,000
ceiling is rejected; 0 is rejected at the add amount step but accepted at
the sync amount step; a negative value is accepted at add but rejected at
sync and at transfer; and every rejected input leaves the session store and
the ledger unchanged, re-prompting the same step. -/
theorem numeric_input_validation_spec :
    (validateAddAmount ("12,50") = .ok 1250 ∧
     validateAddAmount ("12.50") = .ok 1250 ∧
     validateSyncAmount ("12,50") = .ok 1250 ∧
     validateSyncAmount ("12.50") = .ok 1250 ∧
     validateTransferAmount ("12.50") = .ok 1250) ∧
    (validateAddAmount ("12.505") = .error .maxDecimals ∧
     validateSyncAmount ("12.505") = .error .maxDecimals ∧
     validateTransferAmount ("12.505") = .error .maxDecimals) ∧
    (validateAddAmount ("abc") = .error .invalidNumber ∧
     validateSyncAmount ("abc") = .error .invalidNumber ∧
     validateTransferAmount ("abc") = .error .invalidNumber) ∧
    (validateAddAmount ("1000000.01") = .error .maxAmount ∧
     validateAddAmount ("-1000000.01") = .error .maxAmount ∧
     validateSyncAmount ("1000000.01") = .error .maxAmount ∧
     validateTransferAmount ("1000000.01") = .error .maxAmount) ∧
    (validateAddAmount ("0") = .error .invalidNumber ∧
     validateSyncAmount ("0") = .ok 0) ∧
    (validateAddAmount ("-5") = .ok (-500) ∧
     validateSyncAmount ("-5") = .error .negativeNotAllowed ∧
     validateTransferAmount ("-5") = .error .invalidNumber) ∧
    (∀ st sessionKey accountSlug createdById text userMessageId messageIds e,
      validateAddAmount text = .error e →
      (handleAmountInput st sessionKey accountSlug createdById text
        userMessageId messageIds).1.sessions = st.sessions ∧
      (handleAmountInput st sessionKey accountSlug createdById text
        userMessageId messageIds).1.ledger = st.ledger) ∧
    (∀ st sessionKey accountSlug createdById text userMessageId messageIds
        name e,
      validateSyncAmount text = .error e →
      (handleSyncAmountInput st sessionKey accountSlug createdById text
        userMessageId messageIds name).1.sessions = st.sessions ∧
      (handleSyncAmountInput st sessionKey accountSlug createdById text
        userMessageId messageIds name).1.ledger = st.ledger) := by
  refine ⟨by decide, by decide, by decide, by decide, by decide, by decide,
    ?_, ?_⟩
  · intro st sessionKey accountSlug createdById text userMessageId messageIds
      e hv
    constructor <;> simp [handleAmountInput, hv, sendMessage]
  · intro st sessionKey accountSlug createdById text userMessageId messageIds
      name e hv
    constructor <;> simp [handleSyncAmountInput, hv, sendMessage]

/-- Witness for C8: the non-numeric input abc is rejected at the add amount
step of the demo bot without any session or ledger change. -/
theorem numeric_input_validation_spec_witness :
    (handleAmountInput demoBot ("1:2") (some ("cash")) ("u") ("abc")
      none []).1.sessions = demoBot.sessions ∧
    (handleAmountInput demoBot ("1:2") (some ("cash")) ("u") ("abc")
      none []).1.ledger = demoBot.ledger :=
  numeric_input_validation_spec.2.2.2.2.2.2.1 demoBot ("1:2") (some ("cash"))
    ("u") ("abc") none [] .invalidNumber (by decide)

/-! Session isolation: composite keys and per-handler frame lemmas. -/

/-- Two actors in the same chat have distinct composite session keys. -/
theorem getSessionKey_ne (chatId A B : String) (hAB : A ≠ B) :
    getSessionKey chatId A ≠ getSessionKey chatId B := by
  intro h
  apply hAB
  have h2 := congrArg String.data h
  simp only [getSessionKey, String.data_append] at h2
  exact String.ext (List.append_cancel_left h2)

/-- The amount-step handler, invoked for one session key, leaves every other
key's session unchanged, and what it produces does not depend on what is
stored at another key. -/
theorem handleAmountInput_isolated (st : BotState) (keyA key : String)
    (sA : Session) (accountSlug : Option String) (createdById text : String)
    (userMessageId : Option Nat) (messageIds : List Nat) (hk : keyA ≠ key) :
    getSession (handleAmountInput st key accountSlug createdById text
        userMessageId messageIds).1.sessions keyA =
      getSession st.sessions keyA ∧
    (handleAmountInput { st with sessions := setSession st.sessions keyA sA }
        key accountSlug createdById text userMessageId messageIds).2 =
      (handleAmountInput st key accountSlug createdById text userMessageId
        messageIds).2 ∧
    (handleAmountInput { st with sessions := setSession st.sessions keyA sA }
        key accountSlug createdById text userMessageId messageIds).1.ledger =
      (handleAmountInput st key accountSlug createdById text userMessageId
        messageIds).1.ledger ∧
    (handleAmountInput { st with sessions := setSession st.sessions keyA sA }
        key accountSlug createdById text userMessageId messageIds).1.nextMessageId =
      (handleAmountInput st key accountSlug createdById text userMessageId
        messageIds).1.nextMessageId ∧
    (∀ k, k ≠ keyA →
      getSession (handleAmountInput
          { st with sessions := setSession st.sessions keyA sA }
          key accountSlug createdById text userMessageId messageIds).1.sessions k =
        getSession (handleAmountInput st key accountSlug createdById text
          userMessageId messageIds).1.sessions k) := by
  have hk' : ¬key = keyA := fun h => hk h.symm
  cases hv : validateAddAmount text with
  | error e =>
    simp only [handleAmountInput, hv, sendMessage]
    refine ⟨by trivial, by trivial, by trivial, by trivial, ?_⟩
    intro k hkk
    have hak : ¬keyA = k := fun h => hkk h.symm
    rw [getSession_setSession]
    simp [hak]
  | ok v =>
    simp only [handleAmountInput, hv, sendMessage]
    refine ⟨?_, by trivial, by trivial, by trivial, ?_⟩
    · rw [getSession_setSession]
      simp [hk']
    · intro k hkk
      have hak : ¬keyA = k := fun h => hkk h.symm
      simp only [getSession_setSession]
      by_cases h : key = k
      · simp [h]
      · simp [h, hak]

/-- The description-step handler, invoked for one session key, leaves every
other key's session unchanged, and what it produces does not depend on what
is stored at another key. -/
theorem handleDescriptionInput_isolated (st : BotState) (keyA key : String)
    (sA : Session) (accountSlug : Option String) (amount : Int)
    (createdById description : String) (userMessageId : Option Nat)
    (messageIds : List Nat) (createdByName : String) (hk : keyA ≠ key) :
    getSession (handleDescriptionInput st key accountSlug amount createdById
        description userMessageId messageIds createdByName).1.sessions keyA =
      getSession st.sessions keyA ∧
    (handleDescriptionInput { st with sessions := setSession st.sessions keyA sA }
        key accountSlug amount createdById description userMessageId messageIds
        createdByName).2 =
      (handleDescriptionInput st key accountSlug amount createdById description
        userMessageId messageIds createdByName).2 ∧
    (handleDescriptionInput { st with sessions := setSession st.sessions keyA sA }
        key accountSlug amount createdById description userMessageId messageIds
        createdByName).1.ledger =
      (handleDescriptionInput st key accountSlug amount createdById description
        userMessageId messageIds createdByName).1.ledger ∧
    (handleDescriptionInput { st with sessions := setSession st.sessions keyA sA }
        key accountSlug amount createdById description userMessageId messageIds
        createdByName).1.nextMessageId =
      (handleDescriptionInput st key accountSlug amount createdById description
        userMessageId messageIds createdByName).1.nextMessageId ∧
    (∀ k, k ≠ keyA →
      getSession (handleDescriptionInput
          { st with sessions := setSession st.sessions keyA sA }
          key accountSlug amount createdById description userMessageId messageIds
          createdByName).1.sessions k =
        getSession (handleDescriptionInput st key accountSlug amount createdById
          description userMessageId messageIds createdByName).1.sessions k) := by
  have hk' : ¬key = keyA := fun h => hk h.symm
  cases hacct : accountSlug.bind (fun slug => getAccountBySlug st.ledger slug) with
  | none =>
    simp only [handleDescriptionInput, hacct, sendMessage]
    refine ⟨?_, by trivial, by trivial, by trivial, ?_⟩
    · rw [getSession_deleteSession]
      simp [hk']
    · intro k hkk
      have hak : ¬keyA = k := fun h => hkk h.symm
      simp only [getSession_deleteSession, getSession_setSession]
      by_cases h : key = k
      · simp [h]
      · simp [h, hak]
  | some account =>
    simp only [handleDescriptionInput, hacct, sendMessage]
    refine ⟨?_, by trivial, by trivial, by trivial, ?_⟩
    · rw [getSession_deleteSession]
      simp [hk']
    · intro k hkk
      have hak : ¬keyA = k := fun h => hkk h.symm
      simp only [getSession_deleteSession, getSession_setSession]
      by_cases h : key = k
      · simp [h]
      · simp [h, hak]

/-- The sync-amount-step handler, invoked for one session key, leaves every
other key's session unchanged, and what it produces does not depend on what
is stored at another key. -/
theorem handleSyncAmountInput_isolated (st : BotState) (keyA key : String)
    (sA : Session) (accountSlug : Option String) (createdById text : String)
    (userMessageId : Option Nat) (messageIds : List Nat) (createdByName : String)
    (hk : keyA ≠ key) :
    getSession (handleSyncAmountInput st key accountSlug createdById text
        userMessageId messageIds createdByName).1.sessions keyA =
      getSession st.sessions keyA ∧
    (handleSyncAmountInput { st with sessions := setSession st.sessions keyA sA }
        key accountSlug createdById text userMessageId messageIds
        createdByName).2 =
      (handleSyncAmountInput st key accountSlug createdById text userMessageId
        messageIds createdByName).2 ∧
    (handleSyncAmountInput { st with sessions := setSession st.sessions keyA sA }
        key accountSlug createdById text userMessageId messageIds
        createdByName).1.ledger =
      (handleSyncAmountInput st key accountSlug createdById text userMessageId
        messageIds createdByName).1.ledger ∧
    (handleSyncAmountInput { st with sessions := setSession st.sessions keyA sA }
        key accountSlug createdById text userMessageId messageIds
        createdByName).1.nextMessageId =
      (handleSyncAmountInput st key accountSlug createdById text userMessageId
        messageIds createdByName).1.nextMessageId ∧
    (∀ k, k ≠ keyA →
      getSession (handleSyncAmountInput
          { st with sessions := setSession st.sessions keyA sA }
          key accountSlug createdById text userMessageId messageIds
          createdByName).1.sessions k =
        getSession (handleSyncAmountInput st key accountSlug createdById text
          userMessageId messageIds createdByName).1.sessions k) := by
  have hk' : ¬key = keyA := fun h => hk h.symm
  cases hv : validateSyncAmount text with
  | error e =>
    simp only [handleSyncAmountInput, hv, sendMessage]
    refine ⟨by trivial, by trivial, by trivial, by trivial, ?_⟩
    intro k hkk
    have hak : ¬keyA = k := fun h => hkk h.symm
    rw [getSession_setSession]
    simp [hak]
  | ok newBalanceMinor =>
    cases hacct : accountSlug.bind (fun slug => getAccountBySlug st.ledger slug) with
    | none =>
      simp only [handleSyncAmountInput, hv, hacct, sendMessage]
      refine ⟨?_, by trivial, by trivial, by trivial, ?_⟩
      · rw [getSession_deleteSession]
        simp [hk']
      · intro k hkk
        have hak : ¬keyA = k := fun h => hkk h.symm
        simp only [getSession_deleteSession, getSession_setSession]
        by_cases h : key = k
        · simp [h]
        · simp [h, hak]
    | some account =>
      by_cases hd : newBalanceMinor - account.balance = 0
      · simp only [handleSyncAmountInput, hv, hacct, sendMessage, if_pos hd]
        refine ⟨?_, by trivial, by trivial, by trivial, ?_⟩
        · rw [getSession_deleteSession]
          simp [hk']
        · intro k hkk
          have hak : ¬keyA = k := fun h => hkk h.symm
          simp only [getSession_deleteSession, getSession_setSession]
          by_cases h : key = k
          · simp [h]
          · simp [h, hak]
      · simp only [handleSyncAmountInput, hv, hacct, sendMessage, if_neg hd]
        refine ⟨?_, by trivial, by trivial, by trivial, ?_⟩
        · rw [getSession_deleteSession]
          simp [hk']
        · intro k hkk
          have hak : ¬keyA = k := fun h => hkk h.symm
          simp only [getSession_deleteSession, getSession_setSession]
          by_cases h : key = k
          · simp [h]
          · simp [h, hak]

/-- Demo session at the amount step, stored for the first actor in the
witness scenarios. -/
def demoSession : Session :=
  { step := .amount
    accountSlug := some ("cash")
    amount := none
    createdAt := 0
    createdById := ("A")
    messageIds := []
    messageThreadId := none
    fromAccountSlug := none
    toAccountSlug := none
    receivedAmount := none
    exchangeRate := none }

/-- C9: sessions are addressed only through the composite key chatId with
actorId, so an event handled for actor B in a chat never touches the session
actor A holds in the same chat, and its outcome does not depend on A's
session: B's handling in the state where A additionally holds any session
produces the same consumed flag, the same ledger, the same message-id
allocation, and the same sessions at every key other than A's. -/
theorem session_isolation (st : BotState) (chatId A B : String)
    (text : Option String) (userMessageId : Option Nat)
    (createdByName : String) (sA : Session) (hAB : A ≠ B) :
    getSession (handleSessionMessage st chatId B text userMessageId
        createdByName).1.sessions (getSessionKey chatId A) =
      getSession st.sessions (getSessionKey chatId A) ∧
    (handleSessionMessage
        { st with sessions := setSession st.sessions (getSessionKey chatId A) sA }
        chatId B text userMessageId createdByName).2 =
      (handleSessionMessage st chatId B text userMessageId createdByName).2 ∧
    (handleSessionMessage
        { st with sessions := setSession st.sessions (getSessionKey chatId A) sA }
        chatId B text userMessageId createdByName).1.ledger =
      (handleSessionMessage st chatId B text userMessageId createdByName).1.ledger ∧
    (handleSessionMessage
        { st with sessions := setSession st.sessions (getSessionKey chatId A) sA }
        chatId B text userMessageId createdByName).1.nextMessageId =
      (handleSessionMessage st chatId B text userMessageId
        createdByName).1.nextMessageId ∧
    (∀ k, k ≠ getSessionKey chatId A →
      getSession (handleSessionMessage
          { st with sessions := setSession st.sessions (getSessionKey chatId A) sA }
          chatId B text userMessageId createdByName).1.sessions k =
        getSession (handleSessionMessage st chatId B text userMessageId
          createdByName).1.sessions k) := by
  have hk : getSessionKey chatId A ≠ getSessionKey chatId B :=
    getSessionKey_ne chatId A B hAB
  have hread : getSession (setSession st.sessions (getSessionKey chatId A) sA)
      (getSessionKey chatId B) = getSession st.sessions (getSessionKey chatId B) := by
    rw [getSession_setSession]
    simp [hk]
  cases hsess : getSession st.sessions (getSessionKey chatId B) with
  | none =>
    simp only [handleSessionMessage, hread, hsess]
    refine ⟨by trivial, by trivial, by trivial, by trivial, ?_⟩
    intro k hkk
    have hak : ¬getSessionKey chatId A = k := fun h => hkk h.symm
    rw [getSession_setSession]
    simp [hak]
  | some session =>
    cases text with
    | none =>
      simp only [handleSessionMessage, hread, hsess]
      refine ⟨by trivial, by trivial, by trivial, by trivial, ?_⟩
      intro k hkk
      have hak : ¬getSessionKey chatId A = k := fun h => hkk h.symm
      rw [getSession_setSession]
      simp [hak]
    | some t =>
      have htriv : getSession (handleSessionMessage st chatId B (some t)
            userMessageId createdByName).1.sessions (getSessionKey chatId A) =
          getSession st.sessions (getSessionKey chatId A) →
          True := fun _ => trivial
      cases hstep : session.step with
      | amount =>
        simp only [handleSessionMessage, hread, hsess, hstep]
        exact handleAmountInput_isolated st (getSessionKey chatId A)
          (getSessionKey chatId B) sA session.accountSlug B t userMessageId
          session.messageIds hk
      | description =>
        simp only [handleSessionMessage, hread, hsess, hstep]
        exact handleDescriptionInput_isolated st (getSessionKey chatId A)
          (getSessionKey chatId B) sA session.accountSlug
          (session.amount.getD 0) B t userMessageId session.messageIds
          createdByName hk
      | syncAmount =>
        simp only [handleSessionMessage, hread, hsess, hstep]
        exact handleSyncAmountInput_isolated st (getSessionKey chatId A)
          (getSessionKey chatId B) sA session.accountSlug B t userMessageId
          session.messageIds createdByName hk
      | transferTo =>
        simp only [handleSessionMessage, hread, hsess, hstep]
        refine ⟨by trivial, by trivial, by trivial, by trivial, ?_⟩
        intro k hkk
        have hak : ¬getSessionKey chatId A = k := fun h => hkk h.symm
        rw [getSession_setSession]
        simp [hak]
      | transferAmount =>
        simp only [handleSessionMessage, hread, hsess, hstep]
        refine ⟨by trivial, by trivial, by trivial, by trivial, ?_⟩
        intro k hkk
        have hak : ¬getSessionKey chatId A = k := fun h => hkk h.symm
        rw [getSession_setSession]
        simp [hak]
      | transferReceived =>
        simp only [handleSessionMessage, hread, hsess, hstep]
        refine ⟨by trivial, by trivial, by trivial, by trivial, ?_⟩
        intro k hkk
        have hak : ¬getSessionKey chatId A = k := fun h => hkk h.symm
        rw [getSession_setSession]
        simp [hak]
      | transferDescription =>
        simp only [handleSessionMessage, hread, hsess, hstep]
        refine ⟨by trivial, by trivial, by trivial, by trivial, ?_⟩
        intro k hkk
        have hak : ¬getSessionKey chatId A = k := fun h => hkk h.symm
        rw [getSession_setSession]
        simp [hak]

/-- Demo bot state in which actor A of chat 1 holds the demo session. -/
def demoBotA : BotState :=
  { ledger := demoBot.ledger
    sessions := setSession demoBot.sessions (getSessionKey ("1") ("A")) demoSession
    nextMessageId := demoBot.nextMessageId }

/-- Witness for C9: in the demo chat, actor B's amount input is handled the
same with or without actor A's stored session, and A's key is untouched. -/
theorem session_isolation_witness :
    ("A" : String) ≠ ("B") ∧
    (getSession (handleSessionMessage demoBot ("1") ("B") (some ("12,50")) none
        ("Bee")).1.sessions (getSessionKey ("1") ("A")) =
      getSession demoBot.sessions (getSessionKey ("1") ("A")) ∧
    (handleSessionMessage
        demoBotA
        ("1") ("B") (some ("12,50")) none ("Bee")).2 =
      (handleSessionMessage demoBot ("1") ("B") (some ("12,50")) none ("Bee")).2 ∧
    (handleSessionMessage
        demoBotA
        ("1") ("B") (some ("12,50")) none ("Bee")).1.ledger =
      (handleSessionMessage demoBot ("1") ("B") (some ("12,50")) none
        ("Bee")).1.ledger ∧
    (handleSessionMessage
        demoBotA
        ("1") ("B") (some ("12,50")) none ("Bee")).1.nextMessageId =
      (handleSessionMessage demoBot ("1") ("B") (some ("12,50")) none
        ("Bee")).1.nextMessageId ∧
    (∀ k, k ≠ getSessionKey ("1") ("A") →
      getSession (handleSessionMessage
          demoBotA
          ("1") ("B") (some ("12,50")) none ("Bee")).1.sessions k =
        getSession (handleSessionMessage demoBot ("1") ("B") (some ("12,50"))
          none ("Bee")).1.sessions k)) :=
  ⟨by decide, session_isolation demoBot ("1") ("A") ("B") (some ("12,50")) none
    ("Bee") demoSession (by decide)⟩

/-! Same-slug transfers break the replay invariant. -/

/-- Replaying past a consistent segment continues with the accumulated sum. -/
theorem replayBalance_append :
    ∀ (l₁ l₂ : List (Nat × Transaction)) (acc : Int),
      replayConsistent acc l₁ = true →
      replayBalance (l₁ ++ l₂) acc = replayBalance l₂ (acc + sumAmounts l₁)
  | [], l₂, acc, _ => by simp [sumAmounts_nil]
  | p :: rest, l₂, acc, h => by
    simp only [replayConsistent, Bool.and_eq_true, beq_iff_eq] at h
    obtain ⟨h1, h2⟩ := h
    have hmis : ¬p.2.balanceAfter ≠ some (acc + p.2.amount) := not_not.mpr h1
    simp only [List.cons_append, replayBalance, if_neg hmis, List.append_eq]
    rw [replayBalance_append rest l₂ (acc + p.2.amount) h2, sumAmounts_cons]
    congr 1
    ring

/-- Appending the two legs of a same-account transfer to a consistent
history makes the replay stop at the second leg: the first leg's snapshot
still matches the running sum, the second leg's stored snapshot counts only
the credit and misses the debit. -/
theorem replay_breaks_on_two_legs (l : List (Nat × Transaction)) (slug : String)
    (nid : Nat) (fromTxn toTxn : Transaction) (bal f t : Int)
    (hrc : replayConsistent 0 (transactionsFor l slug) = true)
    (hsum : sumAmounts (transactionsFor l slug) = bal)
    (hfslug : fromTxn.accountSlug = slug) (htslug : toTxn.accountSlug = slug)
    (hfamt : fromTxn.amount = -f) (htamt : toTxn.amount = t)
    (hfba : fromTxn.balanceAfter = some (bal - f))
    (htba : toTxn.balanceAfter = some (bal + t))
    (hf : f ≠ 0) :
    replayBalance (transactionsFor (l ++ [(nid, fromTxn), (nid + 1, toTxn)]) slug) 0 =
      .error (nid + 1, bal - f + t, some (bal + t)) := by
  have hlegs : transactionsFor [(nid, fromTxn), (nid + 1, toTxn)] slug =
      [(nid, fromTxn), (nid + 1, toTxn)] := by
    simp [transactionsFor, hfslug, htslug]
  rw [transactionsFor_append, hlegs, replayBalance_append _ _ _ hrc, hsum,
    zero_add]
  have h1 : ¬fromTxn.balanceAfter ≠ some (bal + fromTxn.amount) := by
    rw [hfba, hfamt, sub_eq_add_neg]
    simp
  have h2 : toTxn.balanceAfter ≠ some (bal + fromTxn.amount + toTxn.amount) := by
    rw [htba, hfamt, htamt]
    intro hcon
    have hval := Option.some.inj hcon
    omega
  simp only [replayBalance]
  rw [if_neg h1, if_pos h2]
  have h3 : bal + fromTxn.amount + toTxn.amount = bal - f + t := by
    rw [hfamt, htamt]
    ring
  rw [h3, htba]

/-- C10: the Ledger Engine does not reject a transfer whose source and
destination slugs are equal. With the shared account resolved, the operation
succeeds; both balance writes of the atomic unit target the same account
document, the later (destination) write wins, so the stored balance is the
previous balance plus abs toAmount while the outgoing leg's stored
balanceAfter still records the previous balance minus abs fromAmount. If the
account replayed consistently before and fromAmount is not zero, the result
fails the integrity check at the incoming leg: the replay invariant is not
preserved for this engine input. Only the transfer flow's
destination-selection step rules it out: handleTransferToCallback answers a
destination equal to the stored source without writing anything. -/
theorem same_slug_transfer_breaks_replay (s : LedgerState)
    (data : CreateTransferData) (a : Account)
    (heq : data.toAccountSlug = data.fromAccountSlug)
    (ha : getAccountBySlug s data.fromAccountSlug = some a)
    (hrc : replayConsistent 0
      (transactionsFor s.transactions data.fromAccountSlug) = true)
    (hsum : sumAmounts (transactionsFor s.transactions data.fromAccountSlug) =
      a.balance)
    (hfa : data.fromAmount ≠ 0) :
    (∃ s' fromTxn toTxn,
      createTransferAndUpdateBalances s data =
        .ok (s', (s.nextId, s.nextId + 1)) ∧
      s'.transactions = s.transactions ++
        [(s.nextId, fromTxn), (s.nextId + 1, toTxn)] ∧
      fromTxn.balanceAfter = some (a.balance - |data.fromAmount|) ∧
      toTxn.balanceAfter = some (a.balance + |data.toAmount|) ∧
      getAccountBySlug s' data.fromAccountSlug =
        some { a with balance := a.balance + |data.toAmount| } ∧
      verifyAccountIntegrity s' data.fromAccountSlug =
        .transactionMismatch (s.nextId + 1)
          (a.balance - |data.fromAmount| + |data.toAmount|)
          (some (a.balance + |data.toAmount|)) ∧
      verifyAccountIntegrityBool s' data.fromAccountSlug = false) ∧
    (∀ (bot : BotState) (chatId telegramUserId : String) (session : Session),
      getSession bot.sessions (getSessionKey chatId telegramUserId) =
        some session →
      session.step = .transferTo →
      session.fromAccountSlug = some data.fromAccountSlug →
      handleTransferToCallback bot chatId telegramUserId
        data.fromAccountSlug = bot) := by
  constructor
  · have h1 := findAccount_setAccountBalance_self s.accounts data.fromAccountSlug
      (a.balance - |data.fromAmount|) a ha
    have hlook := findAccount_setAccountBalance_self
      (setAccountBalance s.accounts data.fromAccountSlug
        (a.balance - |data.fromAmount|))
      data.fromAccountSlug (a.balance + |data.toAmount|)
      { a with balance := a.balance - |data.fromAmount| } h1
    have habs : |data.fromAmount| ≠ 0 := abs_ne_zero.mpr hfa
    simp only [createTransferAndUpdateBalances, heq, ha]
    refine ⟨_, _, _, rfl, rfl, rfl, rfl, ?_, ?_, ?_⟩
    · exact hlook
    · simp only [verifyAccountIntegrity, getAccountBySlug]
      rw [hlook,
        replay_breaks_on_two_legs s.transactions data.fromAccountSlug s.nextId
          _ _ a.balance |data.fromAmount| |data.toAmount| hrc hsum rfl rfl rfl
          rfl rfl rfl habs]
    · simp only [verifyAccountIntegrityBool, verifyAccountIntegrity,
        getAccountBySlug]
      rw [hlook,
        replay_breaks_on_two_legs s.transactions data.fromAccountSlug s.nextId
          _ _ a.balance |data.fromAmount| |data.toAmount| hrc hsum rfl rfl rfl
          rfl rfl rfl habs]
  · intro bot chatId telegramUserId session hsess hstep hfromslug
    simp [handleTransferToCallback, hsess, hstep, hfromslug]

/-- Witness for C10: the same-slug transfer on cash (balance 0, 100 out, 200
in) succeeds, stores balance 200 with an outgoing snapshot of -100, and the
integrity check reports the mismatch at the incoming leg; the transfer flow
would have refused the destination. -/
theorem same_slug_transfer_breaks_replay_witness :
    selfTransferData.fromAmount ≠ 0 ∧
    ((∃ s' fromTxn toTxn,
      createTransferAndUpdateBalances demoLedger selfTransferData =
        .ok (s', (demoLedger.nextId, demoLedger.nextId + 1)) ∧
      s'.transactions = demoLedger.transactions ++
        [(demoLedger.nextId, fromTxn), (demoLedger.nextId + 1, toTxn)] ∧
      fromTxn.balanceAfter =
        some (cashAccount.balance - |selfTransferData.fromAmount|) ∧
      toTxn.balanceAfter =
        some (cashAccount.balance + |selfTransferData.toAmount|) ∧
      getAccountBySlug s' selfTransferData.fromAccountSlug =
        some { cashAccount with
          balance := cashAccount.balance + |selfTransferData.toAmount| } ∧
      verifyAccountIntegrity s' selfTransferData.fromAccountSlug =
        .transactionMismatch (demoLedger.nextId + 1)
          (cashAccount.balance - |selfTransferData.fromAmount| +
            |selfTransferData.toAmount|)
          (some (cashAccount.balance + |selfTransferData.toAmount|)) ∧
      verifyAccountIntegrityBool s' selfTransferData.fromAccountSlug = false) ∧
    (∀ (bot : BotState) (chatId telegramUserId : String) (session : Session),
      getSession bot.sessions (getSessionKey chatId telegramUserId) =
        some session →
      session.step = .transferTo →
      session.fromAccountSlug = some selfTransferData.fromAccountSlug →
      handleTransferToCallback bot chatId telegramUserId
        selfTransferData.fromAccountSlug = bot)) :=
  ⟨by decide, same_slug_transfer_breaks_replay demoLedger selfTransferData
    cashAccount (by decide) (by decide) (by decide) (by decide) (by decide)⟩

/-! Counterexamples for the corrected claims C1 and C5. -/

/-- The ledger after the same-slug transfer on cash: balance 200, stored
legs -100 (outgoing, balanceAfter -100) and +200 (incoming, balanceAfter
200) linked to each other. -/
def selfTransferLedger : LedgerState :=
  match createTransferAndUpdateBalances demoLedger selfTransferData with
  | .ok (s', _) => s'
  | .error _ => demoLedger

/-- Counterexample for C5 as frozen: on the same-account transfer pair
(legs -100 and +200 on cash, stored balance 200), cancelling leg 0 succeeds
but leaves balance 0 — the later (linked-side) balance write wins — whereas
subtracting each original leg's amount from the account would give
200 - (-100) - 200 = 100: the claim's balance clause fails at this input. -/
theorem cancelTransfer_spec_counterexample :
    getAccountBySlug selfTransferLedger ("cash") =
      some { cashAccount with balance := 200 } ∧
    (match createTransferCancellation selfTransferLedger 0 ("actorX")
        ("Actor X") with
      | .ok (s', _) => getAccountBySlug s' ("cash")
      | .error _ => none) = some { cashAccount with balance := 0 } ∧
    ¬(0 : Int) = 200 - (-100) - 200 := by
  refine ⟨by decide, by decide, by decide⟩

/-- Demo bot state over the zero ledger, for driving a staged flow terminal
directly. -/
def zeroBot : BotState :=
  { ledger := zeroLedger, sessions := [], nextMessageId := 0 }

/-- Counterexample for C1 as frozen: the staged sync flow terminal
(handleSyncAmountInput, embedded above from handlers/sync.ts) commits its
delta through the legacy createTransaction, which stores no balanceAfter,
plus updateAccountBalance. Starting from the replay-consistent zero ledger
(cash balance 0, no transactions), entering balance 5 commits a sync
transaction of 500 minor units: the stored balance and the sum of amounts
both become 500, but the new transaction's balanceAfter is absent, so the
claim's clause that every stored balanceAfter equals the running sum fails
immediately after this completed sync adjustment. -/
theorem core_ops_preserve_replay_invariant_counterexample :
    replayConsistent 0 (transactionsFor zeroBot.ledger.transactions ("cash")) =
      true ∧
    sumAmounts (transactionsFor zeroBot.ledger.transactions ("cash")) = 0 ∧
    getAccountBySlug zeroBot.ledger ("cash") = some cashAccount ∧
    getAccountBySlug (handleSyncAmountInput zeroBot ("1:A") (some ("cash"))
        ("A") ("5") none [] ("Actor A")).1.ledger ("cash") =
      some { cashAccount with balance := 500 } ∧
    sumAmounts (transactionsFor (handleSyncAmountInput zeroBot ("1:A")
        (some ("cash")) ("A") ("5") none [] ("Actor A")).1.ledger.transactions
      ("cash")) = 500 ∧
    (transactionsFor (handleSyncAmountInput zeroBot ("1:A") (some ("cash"))
        ("A") ("5") none [] ("Actor A")).1.ledger.transactions
      ("cash")).map (fun p => p.2.balanceAfter) = [none] ∧
    replayConsistent 0 (transactionsFor (handleSyncAmountInput zeroBot ("1:A")
        (some ("cash")) ("A") ("5") none [] ("Actor A")).1.ledger.transactions
      ("cash")) = false := by
  refine ⟨by decide, by decide, by decide, by decide, by decide, by decide,
    by decide⟩

end AccountBot
